import Mathlib

/-!
Verification development for the x509-parser repository (TypeScript).

The two source layers are shallowly embedded here:
* `Asn1` — the generic ASN.1 TLV decoder of `src/asn1-parser.ts`
  (`ASN1Parser.parseElement`, `ASN1Parser.parse`, the primitive value
  decoders, `parseASN1`);
* `X509` — the X.509 structural mapper and extension dispatch layer of the
  unnamed module importing `./asn1-parser.js` (`parseX509Certificate`,
  `parseKnownExtension`, `parseKeyUsage`, …), together with the OID/label
  tables of `oid-map.ts`.

Modelling conventions:
* byte buffers are `List Nat`; a read out of a `Uint8Array`/`DataView`
  reduces the entry mod 256 (in JavaScript the entries are bytes already);
* JavaScript 32-bit bitwise arithmetic (`<<`, `|` on numbers) is modelled
  exactly via `jsToInt32`; `x << k | low` with the low bits clear is
  addition, which the helpers `jsShlOr7`/`jsShlOr8` implement;
* thrown JavaScript exceptions become `Except` errors carrying the parser
  offset at the moment of the throw (`this.offset` is mutable state in the
  source);
* `Date` values are UTC milliseconds since the epoch (`Option Int`, `none`
  for an Invalid Date); `REAL` values are kept in symbolic form because
  JavaScript computes them with floating point;
* the unbounded `while` loops of the source recurse on an explicit fuel
  argument; the wrappers pass `buffer.length + 1`, which is always enough
  (each loop iteration consumes at least one byte).
-/

namespace Asn1

/-- JavaScript `ToInt32`: reduce an integer into `[-2^31, 2^31)`. -/
def jsToInt32 (n : Int) : Int :=
  let m := n.emod 4294967296
  if m < 2147483648 then m else m - 4294967296

/-- JavaScript `(acc << 7) | (b & 0x7F)`.  The shifted value has zero low
bits, so the bitwise or is plain addition after the 32-bit wrap. -/
def jsShlOr7 (acc : Int) (b : Nat) : Int :=
  jsToInt32 (acc * 128) + (b % 128)

/-- JavaScript `(acc << 8) | b` for a byte `b`. -/
def jsShlOr8 (acc : Int) (b : Nat) : Int :=
  jsToInt32 (acc * 256) + (b % 256)

/-- JavaScript `1 << n`: the shift count is taken mod 32, and the result is a
signed 32-bit value (`1 << 31` is negative). -/
def jsShl1 (n : Nat) : Int :=
  jsToInt32 ((2 : Int) ^ (n % 32))

/-- The big-endian value of a byte list (specification-side helper). -/
def beVal (bs : List Nat) : Nat :=
  bs.foldl (fun a b => a * 256 + b) 0

/-- One lowercase hexadecimal digit, as produced by `Number.toString(16)`. -/
def hexDigitChar (n : Nat) : Char :=
  if n < 10 then Char.ofNat (48 + n) else Char.ofNat (87 + n)

/-- Fuelled digit recursion (structural, so that concrete runs reduce inside
the kernel); `fuel ≥ n` always suffices since `n / base` shrinks. -/
def natToDigitsFuel (base : Nat) : Nat → Nat → List Char
  | 0, n => [hexDigitChar (n % base)]
  | fuel + 1, n =>
    if n < base then [hexDigitChar n]
    else natToDigitsFuel base fuel (n / base) ++ [hexDigitChar (n % base)]

/-- JavaScript `n.toString(16)` for a natural number (lowercase, no padding). -/
def natToHexChars (n : Nat) : List Char :=
  natToDigitsFuel 16 n n

/-- JavaScript `n.toString(2)` for a natural number. -/
def natToBinChars (n : Nat) : List Char :=
  natToDigitsFuel 2 n n

/-- JavaScript `String.prototype.padStart(len, c)`. -/
def padStart (s : List Char) (len : Nat) (c : Char) : List Char :=
  List.replicate (len - s.length) c ++ s

/-- JavaScript `n.toString(16)` for a (possibly negative) number. -/
def intToHexString (n : Int) : String :=
  if n < 0 then "-" ++ String.mk (natToHexChars n.natAbs)
  else String.mk (natToHexChars n.toNat)

/-- A `Uint8Array` view of a model buffer: entries reduced mod 256. -/
def byteView (l : List Nat) : List Nat :=
  l.map (· % 256)

/-- `ArrayBuffer.prototype.slice(a, b)`: elements `[a, b)`, a negative end
counting from the end of the buffer. -/
def bufSlice (buf : List Nat) (a : Nat) (b : Int) : List Nat :=
  let hi : Int := if b < 0 then max (buf.length + b) 0 else b
  (buf.take hi.toNat).drop a

/-- `ASN1Parser.bytesToHex` (asn1-parser.ts:229-231):
`map(b => b.toString(16).padStart(2, '0')).join('')`. -/
def bytesToHex (bytes : List Nat) : String :=
  String.mk ((bytes.map (fun b => padStart (natToHexChars b) 2 '0')).flatten)

/-- UTF-8 decoding with U+FFFD replacement, as `new TextDecoder("utf-8")`
(non-fatal mode) performs in `ASN1Parser.decodeString` (asn1-parser.ts:233-235). -/
def utf8DecodeChars : List Nat → List Char
  | [] => []
  | b :: rest =>
    if b < 0x80 then Char.ofNat b :: utf8DecodeChars rest
    else if 0xC2 ≤ b ∧ b ≤ 0xDF then
      match rest with
      | c1 :: rest' =>
        if 0x80 ≤ c1 ∧ c1 ≤ 0xBF then
          Char.ofNat ((b - 0xC0) * 64 + (c1 - 0x80)) :: utf8DecodeChars rest'
        else Char.ofNat 0xFFFD :: utf8DecodeChars (c1 :: rest')
      | [] => [Char.ofNat 0xFFFD]
    else if 0xE0 ≤ b ∧ b ≤ 0xEF then
      match rest with
      | c1 :: c2 :: rest' =>
        if (0x80 ≤ c1 ∧ c1 ≤ 0xBF) ∧ (0x80 ≤ c2 ∧ c2 ≤ 0xBF) ∧
            ¬(b = 0xE0 ∧ c1 < 0xA0) ∧ ¬(b = 0xED ∧ 0xA0 ≤ c1) then
          Char.ofNat ((b - 0xE0) * 4096 + (c1 - 0x80) * 64 + (c2 - 0x80)) ::
            utf8DecodeChars rest'
        else Char.ofNat 0xFFFD :: utf8DecodeChars (c1 :: c2 :: rest')
      | c1 :: [] =>
        if 0x80 ≤ c1 ∧ c1 ≤ 0xBF then [Char.ofNat 0xFFFD]
        else [Char.ofNat 0xFFFD, Char.ofNat 0xFFFD]
      | [] => [Char.ofNat 0xFFFD]
    else if 0xF0 ≤ b ∧ b ≤ 0xF4 then
      match rest with
      | c1 :: c2 :: c3 :: rest' =>
        if (0x80 ≤ c1 ∧ c1 ≤ 0xBF) ∧ (0x80 ≤ c2 ∧ c2 ≤ 0xBF) ∧
            (0x80 ≤ c3 ∧ c3 ≤ 0xBF) ∧
            ¬(b = 0xF0 ∧ c1 < 0x90) ∧ ¬(b = 0xF4 ∧ 0x90 ≤ c1) then
          Char.ofNat ((b - 0xF0) * 262144 + (c1 - 0x80) * 4096 +
              (c2 - 0x80) * 64 + (c3 - 0x80)) :: utf8DecodeChars rest'
        else Char.ofNat 0xFFFD :: utf8DecodeChars (c1 :: c2 :: c3 :: rest')
      | _ => [Char.ofNat 0xFFFD]
    else Char.ofNat 0xFFFD :: utf8DecodeChars rest

/-- `ASN1Parser.decodeString` (asn1-parser.ts:233-235). -/
def decodeString (bytes : List Nat) : String :=
  String.mk (utf8DecodeChars bytes)

/-- The symbolic value of an ASN.1 `REAL`.  JavaScript computes these as
floating-point numbers; the components are kept symbolically, with the
integer parts (mantissa including the exact power-of-two scale factor,
exponent, base) computed exactly as the source does. -/
inductive RealVal where
  | zero
  | posInf
  | negInf
  | nanv
  | negZero
  | binary (mantissa : Int) (base : Nat) (exponent : Int)
  | decimal (s : String)
deriving Repr, DecidableEq

/-- A decoded scalar stored in a node's `value.decoded` field. -/
inductive DecVal where
  | str (s : String)
  | num (n : Int)
  | boolv (b : Bool)
  | bits (unusedBits : Nat) (dataHex : String)
  | datev (ms : Option Int)
  | realv (r : RealVal)
deriving Repr, DecidableEq

structure TagInfo where
  number : Int
  hex : String
  «class» : String
  constructed : Bool
  type : String
deriving Repr, DecidableEq

structure LengthInfo where
  value : Int
  encodedHex : String
deriving Repr, DecidableEq

structure LeafValue where
  rawHex : String
  base64 : Option String := none
  decoded : Option DecVal := none
deriving Repr, DecidableEq

/-- `ASN1StructuredNode` (asn1-parser.ts:3-22): the `value` field is either
an ordered list of children (constructed) or a leaf payload. -/
inductive ASN1StructuredNode where
  | constructedNode (tag : TagInfo) (length : LengthInfo)
      (value : List ASN1StructuredNode) (offset : Nat) (fullHex : String)
  | primitiveNode (tag : TagInfo) (length : LengthInfo)
      (value : LeafValue) (offset : Nat) (fullHex : String)
deriving Repr

def ASN1StructuredNode.tag : ASN1StructuredNode → TagInfo
  | .constructedNode t _ _ _ _ => t
  | .primitiveNode t _ _ _ _ => t

def ASN1StructuredNode.length : ASN1StructuredNode → LengthInfo
  | .constructedNode _ l _ _ _ => l
  | .primitiveNode _ l _ _ _ => l

def ASN1StructuredNode.offset : ASN1StructuredNode → Nat
  | .constructedNode _ _ _ o _ => o
  | .primitiveNode _ _ _ o _ => o

def ASN1StructuredNode.fullHex : ASN1StructuredNode → String
  | .constructedNode _ _ _ _ h => h
  | .primitiveNode _ _ _ _ h => h

/-- The children of a constructed node (`Array.isArray(node.value)` true). -/
def ASN1StructuredNode.children? : ASN1StructuredNode → Option (List ASN1StructuredNode)
  | .constructedNode _ _ cs _ _ => some cs
  | .primitiveNode _ _ _ _ _ => none

/-- The leaf payload of a primitive node. -/
def ASN1StructuredNode.leaf? : ASN1StructuredNode → Option LeafValue
  | .constructedNode _ _ _ _ _ => none
  | .primitiveNode _ _ lv _ _ => some lv

/-- `ASN1Parser.decodeOID` inner loop (asn1-parser.ts:245-253); 32-bit
`(value << 7) | (bytes[i] & 0x7F)` accumulation, pushing an arc whenever the
continuation bit is clear. -/
def decodeOIDLoop : List Nat → Int → List Int
  | [], _ => []
  | b :: rest, value =>
    let v := jsShlOr7 value b
    if b % 256 < 128 then v :: decodeOIDLoop rest 0
    else decodeOIDLoop rest v

/-- `ASN1Parser.decodeOID` (asn1-parser.ts:237-256). -/
def decodeOID (bytes : List Nat) : String :=
  match bytes with
  | [] => ""
  | firstByte :: rest =>
    let first := firstByte / 40
    let second := firstByte % 40
    let parts : List Int := [(first : Int), (second : Int)] ++ decodeOIDLoop rest 0
    String.intercalate "." (parts.map toString)

/-- `ASN1Parser.decodeInteger` (asn1-parser.ts:259-268): 32-bit
`(result << 8) | bytes[i]` accumulation, then `result -= 1 << (8 * length)`
when the first byte has its high bit set (the shift count is mod 32). -/
def decodeInteger (bytes : List Nat) : Int :=
  let result := bytes.foldl jsShlOr8 0
  match bytes with
  | [] => result
  | b0 :: _ => if 128 ≤ b0 % 256 then result - jsShl1 (bytes.length * 8) else result

/-- `ASN1Parser.decodeBitString` (asn1-parser.ts:270-279). -/
def decodeBitString (bytes : List Nat) : Nat × String :=
  match bytes with
  | [] => (0, "")
  | unusedBits :: dataBytes => (unusedBits, bytesToHex dataBytes)

/-- `ASN1Parser.decodeBoolean` (asn1-parser.ts:316-321). -/
def decodeBoolean (bytes : List Nat) : Bool :=
  match bytes with
  | [b] => b ≠ 0
  | _ => false

/-- Days from 1970-01-01 of a proleptic-Gregorian civil date (month in 1..12,
day unrestricted — extra days shift linearly exactly as ECMAScript `MakeDay`). -/
def epochDaysOf (y mo d : Int) : Int :=
  let y2 := y - (if mo ≤ 2 then 1 else 0)
  let era := y2.fdiv 400
  let yoe := y2 - era * 400
  let mp := if 2 < mo then mo - 3 else mo + 9
  let doy := (153 * mp + 2).fdiv 5 + d - 1
  let doe := yoe * 365 + yoe.fdiv 4 - yoe.fdiv 100 + doy
  era * 146097 + doe - 719468

/-- ECMAScript `Date.UTC(y, mo, d, h, mi, s)` in milliseconds: `mo` is
zero-based and overflows into the year, years 0..99 are mapped to 1900+y. -/
def jsDateUTC (y mo d h mi s : Int) : Int :=
  let yr := if 0 ≤ y ∧ y ≤ 99 then y + 1900 else y
  let ym := yr + mo.fdiv 12
  let mn := mo.emod 12
  epochDaysOf ym (mn + 1) d * 86400000 + h * 3600000 + mi * 60000 + s * 1000

/-- Two decimal digit characters (`\d` is code points 48-57) to their value
(`parseInt(s, 10)` on an anchored `\d{2}` regex group always succeeds). -/
def twoDigits (a b : Char) : Option Nat :=
  if 48 ≤ a.toNat ∧ a.toNat ≤ 57 ∧ 48 ≤ b.toNat ∧ b.toNat ≤ 57 then
    some ((a.toNat - 48) * 10 + (b.toNat - 48))
  else none

/-- The regex `^(\d{2})(\d{2})(\d{2})(\d{2})(\d{2})(\d{2})?Z$` of
`ASN1Parser.decodeDate` (asn1-parser.ts:286): the six captured groups
(seconds defaulting to 0 when the optional group is absent). -/
def matchUTCTime : List Char → Option (Nat × Nat × Nat × Nat × Nat × Nat)
  | [y1, y2, m1, m2, d1, d2, h1, h2, i1, i2, z] =>
    if z = 'Z' then do
      let y ← twoDigits y1 y2
      let m ← twoDigits m1 m2
      let d ← twoDigits d1 d2
      let h ← twoDigits h1 h2
      let i ← twoDigits i1 i2
      pure (y, m, d, h, i, 0)
    else none
  | [y1, y2, m1, m2, d1, d2, h1, h2, i1, i2, s1, s2, z] =>
    if z = 'Z' then do
      let y ← twoDigits y1 y2
      let m ← twoDigits m1 m2
      let d ← twoDigits d1 d2
      let h ← twoDigits h1 h2
      let i ← twoDigits i1 i2
      let s ← twoDigits s1 s2
      pure (y, m, d, h, i, s)
    else none
  | _ => none

/-- The regex `^(\d{4})(\d{2})(\d{2})(\d{2})(\d{2})(\d{2})?Z$` of
`ASN1Parser.decodeDate` (asn1-parser.ts:299). -/
def matchGeneralizedTime : List Char → Option (Nat × Nat × Nat × Nat × Nat × Nat)
  | [y1, y2, y3, y4, m1, m2, d1, d2, h1, h2, i1, i2, z] =>
    if z = 'Z' then do
      let ya ← twoDigits y1 y2
      let yb ← twoDigits y3 y4
      let m ← twoDigits m1 m2
      let d ← twoDigits d1 d2
      let h ← twoDigits h1 h2
      let i ← twoDigits i1 i2
      pure (ya * 100 + yb, m, d, h, i, 0)
    else none
  | [y1, y2, y3, y4, m1, m2, d1, d2, h1, h2, i1, i2, s1, s2, z] =>
    if z = 'Z' then do
      let ya ← twoDigits y1 y2
      let yb ← twoDigits y3 y4
      let m ← twoDigits m1 m2
      let d ← twoDigits d1 d2
      let h ← twoDigits h1 h2
      let i ← twoDigits i1 i2
      let s ← twoDigits s1 s2
      pure (ya * 100 + yb, m, d, h, i, s)
    else none
  | _ => none

/-- `ASN1Parser.decodeDate` on the already-UTF-8-decoded content string
(asn1-parser.ts:281-314): UTCTime applies the year-50 century pivot,
GeneralizedTime takes the year literally; a non-matching string is returned
unchanged. -/
def decodeDateStr (str : String) (tagNumber : Int) : DecVal :=
  if tagNumber = 0x17 then
    match matchUTCTime str.data with
    | some (year, month, day, hour, minute, second) =>
      let fullYear := if year < 50 then 2000 + year else 1900 + year
      .datev (some (jsDateUTC fullYear ((month : Int) - 1) day hour minute second))
    | none => .str str
  else if tagNumber = 0x18 then
    match matchGeneralizedTime str.data with
    | some (year, month, day, hour, minute, second) =>
      .datev (some (jsDateUTC year ((month : Int) - 1) day hour minute second))
    | none => .str str
  else .str str

/-- `ASN1Parser.decodeDate` (asn1-parser.ts:281-314). -/
def decodeDate (bytes : List Nat) (tagNumber : Int) : DecVal :=
  decodeDateStr (decodeString bytes) tagNumber

/-- Int32 big-endian accumulation used for the REAL exponent and mantissa,
reading a missing byte as 0 (`undefined` coerces to 0 under `|`). -/
def realAccum (bytes : List Nat) (start len : Nat) : Int :=
  (List.range len).foldl (fun acc i => jsShlOr8 acc ((bytes.getD (start + i) 0) % 256)) 0

/-- `ASN1Parser.decodeReal` (asn1-parser.ts:323-375), value kept symbolic. -/
def decodeReal (bytes : List Nat) : RealVal :=
  match bytes with
  | [] => .zero
  | firstByte :: _ =>
    if firstByte = 0x40 then .posInf
    else if firstByte = 0x41 then .negInf
    else if firstByte = 0x42 then .nanv
    else if firstByte = 0x43 then .negZero
    else if 128 ≤ firstByte % 256 then
      let baseIndicator := firstByte / 16 % 4
      let scaleFactor := firstByte / 4 % 4
      let exponentLength := firstByte % 4 + 1
      let exponent0 := realAccum bytes 1 exponentLength
      let exponent :=
        if 128 ≤ (bytes.getD 1 0) % 256 then exponent0 - jsShl1 (8 * exponentLength)
        else exponent0
      let mantissaBytes := bytes.drop (1 + exponentLength)
      let mantissa0 := mantissaBytes.foldl jsShlOr8 0
      let mantissa1 :=
        match mantissaBytes with
        | [] => mantissa0
        | m0 :: _ =>
          if 128 ≤ m0 % 256 then mantissa0 - jsShl1 (8 * mantissaBytes.length)
          else mantissa0
      let mantissa := mantissa1 * 2 ^ (scaleFactor * 3)
      let base := if baseIndicator = 1 then 8 else if baseIndicator = 2 then 16 else 2
      .binary mantissa base exponent
    else .decimal (decodeString bytes)

/-- The base64 alphabet used by `btoa`. -/
def b64Char (n : Nat) : Char :=
  "ABCDEFGHIJKLMNOPQRSTUVWXYZabcdefghijklmnopqrstuvwxyz0123456789+/".data.getD n 'A'

/-- `btoa(String.fromCharCode(...bytes))` on a byte list. -/
def base64Core : List Nat → List Char
  | [] => []
  | [a] => [b64Char (a % 256 / 4), b64Char (a % 256 % 4 * 16), '=', '=']
  | [a, b] => [b64Char (a % 256 / 4), b64Char (a % 256 % 4 * 16 + b % 256 / 16),
      b64Char (b % 256 % 16 * 4), '=']
  | a :: b :: c :: rest =>
    b64Char (a % 256 / 4) :: b64Char (a % 256 % 4 * 16 + b % 256 / 16) ::
      b64Char (b % 256 % 16 * 4 + c % 256 / 64) :: b64Char (c % 256 % 64) ::
        base64Core rest

/-- `ASN1Parser.bytesToBase64` (asn1-parser.ts:378-381). -/
def bytesToBase64 (bytes : List Nat) : String :=
  String.mk (base64Core bytes)

/-- `ASN1Parser.getTagClass` (asn1-parser.ts:384-393). -/
def getTagClass (tagByte : Nat) : String :=
  match tagByte / 64 % 4 with
  | 0 => "UNIVERSAL"
  | 1 => "APPLICATION"
  | 2 => "CONTEXT-SPECIFIC"
  | 3 => "PRIVATE"
  | _ => "UNIVERSAL"

/-- `ASN1Parser.tagToType` (asn1-parser.ts:395-428). -/
def tagToType (tag : Int) : String :=
  if tag = 0x01 then "BOOLEAN"
  else if tag = 0x02 then "INTEGER"
  else if tag = 0x03 then "BIT STRING"
  else if tag = 0x04 then "OCTET STRING"
  else if tag = 0x05 then "NULL"
  else if tag = 0x06 then "OBJECT IDENTIFIER"
  else if tag = 0x07 then "ObjectDescriptor"
  else if tag = 0x08 then "EXTERNAL"
  else if tag = 0x09 then "REAL"
  else if tag = 0x0A then "ENUMERATED"
  else if tag = 0x0B then "EMBEDDED PDV"
  else if tag = 0x0C then "UTF8String"
  else if tag = 0x0D then "RELATIVE-OID"
  else if tag = 0x10 then "SEQUENCE"
  else if tag = 0x11 then "SET"
  else if tag = 0x12 then "NumericString"
  else if tag = 0x13 then "PrintableString"
  else if tag = 0x14 then "TeletexString"
  else if tag = 0x15 then "VideotexString"
  else if tag = 0x16 then "IA5String"
  else if tag = 0x17 then "UTCTime"
  else if tag = 0x18 then "GeneralizedTime"
  else if tag = 0x19 then "GraphicString"
  else if tag = 0x1A then "VisibleString"
  else if tag = 0x1B then "GeneralString"
  else if tag = 0x1C then "UniversalString"
  else if tag = 0x1D then "CHARACTER STRING"
  else if tag = 0x1E then "BMPString"
  else "Unknown (0x" ++ intToHexString tag ++ ")"

/-- A thrown JavaScript exception.  `err` is `new Error(msg)`; the two range
errors are thrown by `DataView.getUint8` and the `Uint8Array` constructor;
`outOfFuel` is an artifact of the fuelled recursion and is never reached when
the fuel is at least `buffer.length + 1`. -/
inductive JsError where
  | err (msg : String)
  | rangeGetUint8
  | rangeTypedArray
  | typeError
  | outOfFuel
deriving Repr, DecidableEq

/-- JavaScript string interpolation `${e}` of a thrown value. -/
def jsErrorString : JsError → String
  | .err m => "Error: " ++ m
  | .rangeGetUint8 => "RangeError: Offset is outside the bounds of the DataView"
  | .rangeTypedArray => "RangeError: Invalid typed array length"
  | .typeError => "TypeError"
  | .outOfFuel => "Error: out of fuel"

/-- The result of a parser step: either a value with the advanced offset, or
a thrown error together with `this.offset` at the moment of the throw. -/
abbrev ParseM (α : Type) := Except (JsError × Nat) α

/-- `ASN1Parser.readByte` (asn1-parser.ts:196-200): `DataView.getUint8`
throws a `RangeError` past the end; the result is a byte. -/
def readByte (buf : List Nat) (off : Nat) : ParseM (Nat × Nat) :=
  match buf[off]? with
  | some b => .ok (b % 256, off + 1)
  | none => .error (.rangeGetUint8, off)

/-- `ASN1Parser.readBytes` (asn1-parser.ts:202-206): a `Uint8Array` view of
`length` bytes from the current offset; the constructor throws when the
requested range is negative or extends past the buffer end. -/
def readBytes (buf : List Nat) (off : Nat) (length : Int) : ParseM (List Nat × Nat) :=
  if 0 ≤ length ∧ (off : Int) + length ≤ (buf.length : Int) then
    .ok (byteView ((buf.drop off).take length.toNat), off + length.toNat)
  else .error (.rangeTypedArray, off)

/-- The tag-number continuation loop of `ASN1Parser.parseElement`
(asn1-parser.ts:96-101): `do { byte = readByte(); tagNumber =
(tagNumber << 7) | (byte & 0x7F); } while (byte & 0x80)`. -/
def readTagNumberLoop (buf : List Nat) : Nat → Int → Nat → ParseM (Int × Nat)
  | 0, _, off => .error (.outOfFuel, off)
  | fuel + 1, tagNumber, off =>
    match buf[off]? with
    | none => .error (.rangeGetUint8, off)
    | some b =>
      let byte := b % 256
      let tagNumber' := jsShlOr7 tagNumber byte
      if 128 ≤ byte then readTagNumberLoop buf fuel tagNumber' (off + 1)
      else .ok (tagNumber', off + 1)

/-- The length-byte accumulation loop of `ASN1Parser.readLength`
(asn1-parser.ts:220-223). -/
def readLengthLoop (buf : List Nat) : Nat → Int → Nat → ParseM (Int × Nat)
  | 0, acc, off => .ok (acc, off)
  | n + 1, acc, off => do
    let (b, off') ← readByte buf off
    readLengthLoop buf n (jsShlOr8 acc b) off'

/-- `ASN1Parser.readLength` (asn1-parser.ts:208-226). -/
def readLength (buf : List Nat) (off : Nat) : ParseM (Int × Nat) := do
  let (firstByte, off1) ← readByte buf off
  if firstByte < 128 then
    .ok ((firstByte : Int), off1)
  else
    let numBytes := firstByte % 128
    if numBytes = 0 ∨ numBytes > 4 then
      .error (.err ("Invalid length encoding at offset " ++ toString (off1 - 1)), off1)
    else if (off1 : Int) + (numBytes : Int) > (buf.length : Int) then
      .error (.err ("Length extends beyond buffer at offset " ++ toString off1), off1)
    else
      readLengthLoop buf numBytes 0 off1

/-- The `decoded` field assignments of `ASN1Parser.parseElement`
(asn1-parser.ts:147-174), keyed by tag number. -/
def decodeByTag (tagNumber : Int) (valueBytes : List Nat) : Option DecVal :=
  if tagNumber = 0x01 then some (.boolv (decodeBoolean valueBytes))
  else if tagNumber = 0x02 then some (.num (decodeInteger valueBytes))
  else if tagNumber = 0x03 then
    some (.bits (decodeBitString valueBytes).1 (decodeBitString valueBytes).2)
  else if tagNumber = 0x06 then some (.str (decodeOID valueBytes))
  else if tagNumber = 0x09 then some (.realv (decodeReal valueBytes))
  else if tagNumber = 0x0A then some (.num (decodeInteger valueBytes))
  else if tagNumber = 0x0C ∨ tagNumber = 0x13 then some (.str (decodeString valueBytes))
  else if tagNumber = 0x17 ∨ tagNumber = 0x18 then some (decodeDate valueBytes tagNumber)
  else none

/-- The tag-number step of `ASN1Parser.parseElement` (asn1-parser.ts:93-101):
the low five bits directly, or the base-128 continuation loop after the
`0x1F` escape. -/
def readTagNumber (buf : List Nat) (tagByte off1 : Nat) : ParseM (Int × Nat) :=
  if tagByte % 32 = 31 then readTagNumberLoop buf (buf.length + 1) 0 off1
  else pure ((tagByte % 32 : Int), off1)

mutual

/-- `ASN1Parser.parseElement` (asn1-parser.ts:85-194). -/
def parseElement (buf : List Nat) : Nat → Nat → ParseM (ASN1StructuredNode × Nat)
  | 0, off => .error (.outOfFuel, off)
  | fuel + 1, off => do
    let startOffset := off
    let (tagByte, off1) ← readByte buf off
    let tagHex := String.mk (padStart (natToHexChars tagByte) 2 '0')
    let tagClass := getTagClass tagByte
    let constructed := tagByte / 32 % 2 = 1
    let (tagNumber, off2) ← readTagNumber buf tagByte off1
    let lengthStart := off2
    let (lengthValue, off3) ← readLength buf off2
    if (off3 : Int) + lengthValue > (buf.length : Int) then
      .error (.err ("Declared length extends beyond buffer at offset " ++
        toString startOffset), off3)
    else
      let lengthEncodedHex := bytesToHex (byteView (bufSlice buf lengthStart off3))
      let typeName := tagToType tagNumber
      if constructed then do
        let endOffset := (off3 : Int) + lengthValue
        let (value, off4) ← parseChildren buf fuel endOffset off3 []
        let fullHex := bytesToHex (byteView (bufSlice buf startOffset endOffset))
        .ok (.constructedNode
          ⟨tagNumber, tagHex, tagClass, true, typeName⟩
          ⟨lengthValue, lengthEncodedHex⟩ value startOffset fullHex, off4)
      else do
        let (valueBytes, off4) ← readBytes buf off3 lengthValue
        let fullHex := bytesToHex (byteView (bufSlice buf startOffset (off4 : Int)))
        let valueHex := bytesToHex valueBytes
        let base64v := if tagNumber = 0x04 then some (bytesToBase64 valueBytes) else none
        .ok (.primitiveNode
          ⟨tagNumber, tagHex, tagClass, false, typeName⟩
          ⟨lengthValue, lengthEncodedHex⟩
          ⟨valueHex, base64v, decodeByTag tagNumber valueBytes⟩ startOffset fullHex, off4)

/-- The child loop of the constructed case (asn1-parser.ts:116-118):
`while (this.offset < endOffset) value.push(this.parseElement())`. -/
def parseChildren (buf : List Nat) : Nat → Int → Nat → List ASN1StructuredNode →
    ParseM (List ASN1StructuredNode × Nat)
  | 0, _, off, _ => .error (.outOfFuel, off)
  | fuel + 1, endOffset, off, acc =>
    if (off : Int) < endOffset then do
      let (node, off') ← parseElement buf fuel off
      parseChildren buf fuel endOffset off' (acc ++ [node])
    else .ok (acc, off)

end

/-- A node after `ASN1Parser.simplifyNode`:
`{tag: type, class, offset, value}` where a leaf value collapses to
`decoded ?? base64 ?? rawHex`. -/
inductive SimpleNode where
  | constructedS (tag «class» : String) (offset : Nat) (value : List SimpleNode)
  | primitiveS (tag «class» : String) (offset : Nat) (value : DecVal)
deriving Repr

mutual

/-- `ASN1Parser.simplifyNode` (asn1-parser.ts:69-81). -/
def simplifyNode : ASN1StructuredNode → SimpleNode
  | .constructedNode t _ cs off _ => .constructedS t.type t.«class» off (simplifyList cs)
  | .primitiveNode t _ lv off _ =>
    .primitiveS t.type t.«class» off
      (lv.decoded.getD (match lv.base64 with
        | some b => .str b
        | none => .str lv.rawHex))

def simplifyList : List ASN1StructuredNode → List SimpleNode
  | [] => []
  | n :: ns => simplifyNode n :: simplifyList ns

end

/-- The `result` field of `ASN1Parser.parse`: its shape depends on the
`parseAll`/`simplify` options (asn1-parser.ts:61-63); `one none` models the
`undefined` of `nodes[0]` on an empty node list. -/
inductive ParseResultVal where
  | one (n : Option ASN1StructuredNode)
  | many (ns : List ASN1StructuredNode)
  | simpleOne (n : SimpleNode)
  | simpleMany (ns : List SimpleNode)
deriving Repr

structure ParseOptions where
  parseAll : Bool := true
  simplify : Bool := false

/-- The `while` loop of `ASN1Parser.parse` (asn1-parser.ts:47-59): on a
thrown element error, push `Error parsing ASN.1 at offset ${this.offset}: ${e}`
(with the parser offset at the throw) and stop. -/
def parseLoop (buf : List Nat) (pfuel : Nat) (parseAll : Bool) :
    Nat → Nat → List ASN1StructuredNode × List String
  | 0, _ => ([], [])
  | fuel + 1, off =>
    if off < buf.length then
      match parseElement buf pfuel off with
      | .ok (node, off') =>
        if parseAll then
          let rest := parseLoop buf pfuel parseAll fuel off'
          (node :: rest.1, rest.2)
        else ([node], [])
      | .error (e, offErr) =>
        ([], ["Error parsing ASN.1 at offset " ++ toString offErr ++ ": " ++
          jsErrorString e])
    else ([], [])

/-- `ASN1Parser.parse` (asn1-parser.ts:44-66).  In `simplify` single-element
mode on an empty result, `simplifyNode(nodes[0])` dereferences `undefined`
and throws a `TypeError`. -/
def ASN1Parser.parse (buf : List Nat) (options : ParseOptions) :
    Except JsError (ParseResultVal × List String) :=
  let fuel := buf.length + 1
  let (nodes, errors) := parseLoop buf fuel options.parseAll fuel 0
  if options.simplify then
    if options.parseAll then .ok (.simpleMany (simplifyList nodes), errors)
    else
      match nodes with
      | [] => .error .typeError
      | n :: _ => .ok (.simpleOne (simplifyNode n), errors)
  else
    if options.parseAll then .ok (.many nodes, errors)
    else .ok (.one nodes.head?, errors)

/-- `parseASN1` (asn1-parser.ts:433-439). -/
def parseASN1 (buf : List Nat) (options : ParseOptions) :
    Except JsError (ParseResultVal × List String) :=
  ASN1Parser.parse buf options

end Asn1

namespace OidMap

/-- `OID_MAP` (oid-map.ts:3-110). -/
def OID_MAP : List (String × String) := [
  ("2.5.4.3", "commonName"),
  ("2.5.4.4", "surname"),
  ("2.5.4.5", "serialNumber"),
  ("2.5.4.6", "countryName"),
  ("2.5.4.7", "localityName"),
  ("2.5.4.8", "stateOrProvinceName"),
  ("2.5.4.9", "streetAddress"),
  ("2.5.4.10", "organizationName"),
  ("2.5.4.11", "organizationalUnitName"),
  ("2.5.4.12", "title"),
  ("2.5.4.42", "givenName"),
  ("2.5.4.97", "organizationIdentifier"),
  ("1.2.840.113549.1.9.1", "emailAddress"),
  ("1.2.840.113549.1.1.1", "rsaEncryption"),
  ("1.2.840.113549.1.1.5", "sha1WithRSAEncryption"),
  ("1.2.840.113549.1.1.11", "sha256WithRSAEncryption"),
  ("1.2.840.113549.1.1.12", "sha384WithRSAEncryption"),
  ("1.2.840.113549.1.1.13", "sha512WithRSAEncryption"),
  ("1.2.840.10045.2.1", "ecPublicKey"),
  ("1.2.840.10045.4.3.2", "ecdsaWithSHA256"),
  ("1.2.840.10045.4.3.3", "ecdsaWithSHA384"),
  ("1.2.840.10045.4.3.4", "ecdsaWithSHA512"),
  ("1.3.101.110", "X25519"),
  ("1.3.101.111", "X448"),
  ("1.3.101.112", "Ed25519"),
  ("1.3.101.113", "Ed448"),
  ("2.5.29.14", "subjectKeyIdentifier"),
  ("2.5.29.15", "keyUsage"),
  ("2.5.29.17", "subjectAltName"),
  ("2.5.29.19", "basicConstraints"),
  ("2.5.29.31", "cRLDistributionPoints"),
  ("2.5.29.32", "certificatePolicies"),
  ("2.5.29.35", "authorityKeyIdentifier"),
  ("2.5.29.37", "extendedKeyUsage"),
  ("2.5.29.30", "nameConstraints"),
  ("2.5.29.36", "policyConstraints"),
  ("2.5.29.54", "inhibitAnyPolicy"),
  ("1.3.6.1.5.5.7.3.1", "serverAuth"),
  ("1.3.6.1.5.5.7.3.2", "clientAuth"),
  ("1.3.6.1.5.5.7.3.3", "codeSigning"),
  ("1.3.6.1.5.5.7.3.4", "emailProtection"),
  ("1.3.6.1.5.5.7.3.8", "timeStamping"),
  ("1.3.6.1.5.5.7.3.9", "OCSPSigning"),
  ("1.3.6.1.5.5.7.1.1", "authorityInfoAccess"),
  ("1.3.6.1.5.5.7.1.3", "qcStatements"),
  ("1.3.6.1.5.5.7.48.1", "ocsp"),
  ("1.3.6.1.5.5.7.48.2", "caIssuers"),
  ("1.3.6.1.5.5.7.48.3", "timeStampingAuthority"),
  ("2.23.140.1.1", "CA/Browser Forum Baseline Requirements Compliance"),
  ("2.23.140.1.2.1", "DV SSL/TLS Certificate (Domain Validation)"),
  ("2.23.140.1.2.2", "OV SSL/TLS Certificate (Organization Validation)"),
  ("2.23.140.1.2.3", "EV SSL/TLS Certificate (Extended Validation)"),
  ("2.23.140.1.3", "EV S/MIME Certificate"),
  ("2.23.140.1.4.1", "OV S/MIME Certificate"),
  ("2.23.140.1.4.2", "DV S/MIME Certificate"),
  ("2.23.140.1.5.1.1", "EV Code Signing Certificate"),
  ("2.23.140.1.5.3.1", "EV TLS Web Server Authentication"),
  ("0.4.0.1862.1.1", "id-etsi-qcs-QcCompliance"),
  ("0.4.0.1862.1.4", "id-etsi-qcs-QcSSCD"),
  ("0.4.0.1862.1.5", "id-etsi-qcs-QcPDS"),
  ("0.4.0.1862.1.6", "id-etsi-qcs-QcType"),
  ("0.4.0.1862.1.6.1", "qct-esign"),
  ("0.4.0.1862.1.6.2", "qct-eseal"),
  ("0.4.0.1862.1.6.3", "qct-web"),
  ("1.2.250.1.177.1.1.1", "RGS Signature (personne physique)"),
  ("1.2.250.1.177.1.1.2", "RGS Cachet serveur"),
  ("1.2.250.1.177.1.1.3", "RGS Authentification personne physique"),
  ("1.2.250.1.177.1.1.4", "RGS Chiffrement personne physique"),
  ("1.2.250.1.177.1.1.5", "RGS Authentification serveur"),
  ("1.2.250.1.177.2.1.1.1", "RGS Niveau faible"),
  ("1.2.250.1.177.2.1.1.2", "RGS Niveau substantiel"),
  ("1.2.250.1.177.2.1.1.3", "RGS Niveau élevé"),
  ("1.2.250.1.177.2.4.1.1.1", "RGS Authentification personne physique (v2)"),
  ("1.2.250.1.177.2.4.1.1.2", "RGS Authentification personne morale (v2)"),
  ("1.2.250.1.177.2.4.2.1.1", "RGS Signature personne physique (v2)"),
  ("1.2.250.1.177.2.4.2.1.2", "RGS Signature personne morale (v2)"),
  ("1.2.250.1.177.2.4.3.1.1", "RGS Chiffrement personne physique (v2)"),
  ("1.2.250.1.177.2.4.3.1.2", "RGS Chiffrement personne morale (v2)"),
  ("1.2.840.113583.1.1.5", "Adobe Authentic Documents Trust"),
  ("1.2.840.113583.1.1.7", "Adobe Document Signing"),
  ("1.2.840.113583.1.1.9", "Adobe PDF Signing"),
  ("1.2.840.113583.1.1.8", "Adobe Certified Document Services (CDS)"),
  ("1.3.6.1.4.1.11129.2.4.2", "certificateTransparency"),
  ("1.3.6.1.5.5.7.2.1", "cpsUri"),
  ("1.3.6.1.5.5.7.2.2", "userNotice")]

/-- `getOIDLabel` (oid-map.ts:112-114). -/
def getOIDLabel (oid : String) : String :=
  match OID_MAP.lookup oid with
  | some label => label
  | none => "Unknown OID (" ++ oid ++ ")"

/-- `KeyUsageLabels` (oid-map.ts:117-127).  `Object.entries` iterates the
integer-like keys in ascending order. -/
def KeyUsageLabels : List (Nat × String) := [
  (0, "digitalSignature"),
  (1, "nonRepudiation"),
  (2, "keyEncipherment"),
  (3, "dataEncipherment"),
  (4, "keyAgreement"),
  (5, "keyCertSign"),
  (6, "cRLSign"),
  (7, "encipherOnly"),
  (8, "decipherOnly")]

end OidMap

namespace X509

open Asn1 OidMap

/-!
Embedding of the unnamed X.509 mapper module (`src/unnamed/part_001`).

JavaScript dynamics are modelled as follows:
* an access on `undefined` (an out-of-range index, a missing destructured
  element, a method call on a non-array) throws a `TypeError`; those paths
  return `.error "TypeError"`, other thrown `Error`s carry their message;
* TypeScript `as`-casts perform no runtime check: "cast a leaf payload to a
  node array" is modelled by `children?.getD []` wherever the subsequent
  code observes `undefined` element/`length` accesses (the observable
  behaviour is identical), and by an explicit `TypeError` where the code
  destructures or calls array methods on the payload object;
* a decoded scalar (`DecVal`) used where the source expects a string is
  rendered with `jsDisplayString`; for the nodes the mapper actually reads
  (OIDs, printable strings) the decoded value is always a `.str`, so only
  that case is exercised.  The rendering of a `Date` or `REAL` in a template
  literal is host-environment dependent and rendered canonically here.
-/

/-- The provenance attached to every field (`makeField`, part_001:83-92). -/
structure FieldProv where
  offset : Nat
  fullHex : String
  tag : TagInfo
deriving Repr, DecidableEq

/-- `X509Field<T>` (part_001:4-11). -/
structure X509Field (α : Type) where
  value : α
  asn1 : FieldProv
deriving Repr, DecidableEq

/-- `{oid, label}` pairs produced all over the mapper. -/
structure OidLabelPair where
  oid : String
  label : String
deriving Repr, DecidableEq

/-- JavaScript string coercion of a decoded scalar (template literals,
property keys).  Only the `.str` case is reachable from the mapper. -/
def jsDisplayString : DecVal → String
  | .str s => s
  | .num n => toString n
  | .boolv b => if b then "true" else "false"
  | .bits _ _ => "[object Object]"
  | .datev (some ms) => "Date(" ++ toString ms ++ ")"
  | .datev none => "Invalid Date"
  | .realv .zero => "0"
  | .realv .posInf => "Infinity"
  | .realv .negInf => "-Infinity"
  | .realv .nanv => "NaN"
  | .realv .negZero => "0"
  | .realv (.binary m b e) =>
    "Real(" ++ toString m ++ "*" ++ toString b ++ "^" ++ toString e ++ ")"
  | .realv (.decimal s) => s

/-- `getDecoded(x) ?? default` rendered as a string. -/
def jsStringOr (default : String) (v : Option DecVal) : String :=
  match v with
  | none => default
  | some d => jsDisplayString d

/-- Whether `parseFloat(s)` yields a truthy number: some digit appears in the
prefix literal and some significand digit is nonzero.  (Floating-point
underflow of extreme exponents is not modelled; no claim depends on it.) -/
def jsParseFloatTruthy (s : String) : Bool :=
  let cs := s.data.dropWhile (fun c => c = ' ' ∨ c = '\t' ∨ c = '\n')
  let cs := match cs with
    | '+' :: rest => rest
    | '-' :: rest => rest
    | l => l
  let intPart := cs.takeWhile Char.isDigit
  let afterInt := cs.drop intPart.length
  let fracPart := match afterInt with
    | '.' :: rest => rest.takeWhile Char.isDigit
    | _ => []
  if intPart = [] ∧ fracPart = [] then false
  else (intPart ++ fracPart).any (fun c => c ≠ '0')

/-- JavaScript truthiness of a decoded scalar (`!!x`, `if (x)`). -/
def jsTruthy : Option DecVal → Bool
  | none => false
  | some (.str s) => s ≠ ""
  | some (.num n) => n ≠ 0
  | some (.boolv b) => b
  | some (.bits _ _) => true
  | some (.datev _) => true
  | some (.realv .zero) => false
  | some (.realv .posInf) => true
  | some (.realv .negInf) => true
  | some (.realv .nanv) => false
  | some (.realv .negZero) => false
  | some (.realv (.binary m _ _)) => m ≠ 0
  | some (.realv (.decimal s)) => jsParseFloatTruthy s

/-- Maximal decimal-digit prefix value, `none` when the first character is
not a digit (JavaScript `parseInt(s, 10)` returning `NaN`). -/
def jsParseIntDec (cs : List Char) : Option Nat :=
  let ds := cs.takeWhile Char.isDigit
  if ds = [] then none
  else some (ds.foldl (fun a c => a * 10 + (c.toNat - 48)) 0)

/-- One hexadecimal digit's value. -/
def hexDigitVal (c : Char) : Option Nat :=
  if '0' ≤ c ∧ c ≤ '9' then some (c.toNat - 48)
  else if 'a' ≤ c ∧ c ≤ 'f' then some (c.toNat - 87)
  else if 'A' ≤ c ∧ c ≤ 'F' then some (c.toNat - 55)
  else none

/-- Maximal hexadecimal-digit prefix value, `none` when the first character
is not a hex digit (JavaScript `parseInt(s, 16)` returning `NaN`). -/
def jsParseIntHex (cs : List Char) : Option Nat :=
  let ds := cs.takeWhile (fun c => (hexDigitVal c).isSome)
  if ds = [] then none
  else some (ds.foldl (fun a c => a * 16 + (hexDigitVal c).getD 0) 0)

/-- `parseASN1Date` (part_001:235-257): UTCTime by exact length 13,
GeneralizedTime by length ≥ 15, both requiring a trailing `Z`
(`str.endsWith('Z')`, expressed on the character list); a `NaN` component
yields an Invalid Date (`datev none`); anything else is returned as the raw
string. -/
def parseASN1Date (str : String) : DecVal :=
  let cs := str.data
  if str.length = 13 ∧ cs.getLast? = some 'Z' then
    match jsParseIntDec (cs.take 2), jsParseIntDec ((cs.drop 2).take 2),
        jsParseIntDec ((cs.drop 4).take 2), jsParseIntDec ((cs.drop 6).take 2),
        jsParseIntDec ((cs.drop 8).take 2), jsParseIntDec ((cs.drop 10).take 2) with
    | some year, some month, some day, some hour, some minute, some second =>
      let fullYear := if year < 50 then 2000 + year else 1900 + year
      .datev (some (jsDateUTC fullYear ((month : Int) - 1) day hour minute second))
    | _, _, _, _, _, _ => .datev none
  else if 15 ≤ str.length ∧ cs.getLast? = some 'Z' then
    match jsParseIntDec (cs.take 4), jsParseIntDec ((cs.drop 4).take 2),
        jsParseIntDec ((cs.drop 6).take 2), jsParseIntDec ((cs.drop 8).take 2),
        jsParseIntDec ((cs.drop 10).take 2), jsParseIntDec ((cs.drop 12).take 2) with
    | some year, some month, some day, some hour, some minute, some second =>
      .datev (some (jsDateUTC year ((month : Int) - 1) day hour minute second))
    | _, _, _, _, _, _ => .datev none
  else .str str

/-- windows-1252 decoding of one byte (`new TextDecoder("ascii")` resolves
to the windows-1252 encoding per the WHATWG Encoding standard). -/
def win1252Char (b : Nat) : Char :=
  if b = 0x80 then Char.ofNat 0x20AC
  else if b = 0x82 then Char.ofNat 0x201A
  else if b = 0x83 then Char.ofNat 0x0192
  else if b = 0x84 then Char.ofNat 0x201E
  else if b = 0x85 then Char.ofNat 0x2026
  else if b = 0x86 then Char.ofNat 0x2020
  else if b = 0x87 then Char.ofNat 0x2021
  else if b = 0x88 then Char.ofNat 0x02C6
  else if b = 0x89 then Char.ofNat 0x2030
  else if b = 0x8A then Char.ofNat 0x0160
  else if b = 0x8B then Char.ofNat 0x2039
  else if b = 0x8C then Char.ofNat 0x0152
  else if b = 0x8E then Char.ofNat 0x017D
  else if b = 0x91 then Char.ofNat 0x2018
  else if b = 0x92 then Char.ofNat 0x2019
  else if b = 0x93 then Char.ofNat 0x201C
  else if b = 0x94 then Char.ofNat 0x201D
  else if b = 0x95 then Char.ofNat 0x2022
  else if b = 0x96 then Char.ofNat 0x2013
  else if b = 0x97 then Char.ofNat 0x2014
  else if b = 0x98 then Char.ofNat 0x02DC
  else if b = 0x99 then Char.ofNat 0x2122
  else if b = 0x9A then Char.ofNat 0x0161
  else if b = 0x9B then Char.ofNat 0x203A
  else if b = 0x9C then Char.ofNat 0x0153
  else if b = 0x9E then Char.ofNat 0x017E
  else if b = 0x9F then Char.ofNat 0x0178
  else Char.ofNat (b % 256)

/-- Successive two-character chunks of a character list. -/
def hexPairs : List Char → List (Char × Char)
  | a :: b :: rest => (a, b) :: hexPairs rest
  | _ => []

/-- `decodeIA5String` (part_001:433-441): bytes from successive
`parseInt(hex.substr(2i, 2), 16)` (a `NaN` stores 0 in the `Uint8Array`),
decoded with `TextDecoder("ascii")` (= windows-1252). -/
def decodeIA5String (node : ASN1StructuredNode) : String :=
  match node.leaf? with
  | none => ""
  | some lv =>
    if lv.rawHex = "" then ""
    else
      let bytes := (hexPairs lv.rawHex.data).map
        (fun p => ((jsParseIntHex [p.1, p.2]).getD 0) % 256)
      String.mk (bytes.map win1252Char)

/-- `getDecoded` (part_001:47-57). -/
def getDecoded (node : Option ASN1StructuredNode) : Option DecVal :=
  match node with
  | none => none
  | some n =>
    match n with
    | .constructedNode _ _ _ _ _ => none
    | .primitiveNode t _ lv _ _ =>
      match lv.decoded with
      | none => none
      | some d =>
        if t.type = "UTCTime" ∨ t.type = "GeneralizedTime" then
          match d with
          | .str s => some (parseASN1Date s)
          | _ => some d
        else some d

/-- `getDecodedOrForceString` (part_001:59-73). -/
def getDecodedOrForceString (node : Option ASN1StructuredNode) : Option DecVal :=
  match node with
  | none => none
  | some n =>
    match n with
    | .constructedNode _ _ _ _ _ => none
    | .primitiveNode t _ lv _ _ =>
      let decoded :=
        match lv.decoded with
        | none => if lv.rawHex.length > 0 then some (DecVal.str (decodeIA5String n)) else none
        | some d => some d
      match decoded with
      | none => none
      | some d =>
        if t.type = "UTCTime" ∨ t.type = "GeneralizedTime" then
          match d with
          | .str s => some (parseASN1Date s)
          | _ => some d
        else some d

/-- `getRawHex` (part_001:77-80). -/
def getRawHex (node : Option ASN1StructuredNode) : Option String :=
  match node with
  | none => none
  | some n =>
    match n.leaf? with
    | none => none
    | some lv => some lv.rawHex

/-- `makeField` (part_001:83-92). -/
def makeField {α : Type} (value : α) (node : ASN1StructuredNode) : X509Field α :=
  ⟨value, ⟨node.offset, node.fullHex, node.tag⟩⟩

/-- `makeField` applied to a possibly-`undefined` node: dereferencing
`undefined.offset` throws a `TypeError`. -/
def makeFieldE {α : Type} (value : α) (node : Option ASN1StructuredNode) :
    Except String (X509Field α) :=
  match node with
  | some n => .ok (makeField value n)
  | none => .error "TypeError"

/-- `forceDecodeString` (part_001:94-104; unused by the mapper). -/
def forceDecodeString (node : ASN1StructuredNode) : String :=
  match node.leaf? with
  | some lv =>
    if lv.rawHex ≠ "" then
      String.mk ((hexPairs lv.rawHex.data).map
        (fun p => Char.ofNat (((jsParseIntHex [p.1, p.2]).getD 0) % 65536)))
    else ""
  | none => ""

/-- `hexToArrayBuffer` (part_001:443-450). -/
def hexToArrayBuffer (hex : String) : Except String (List Nat) :=
  if hex.length % 2 ≠ 0 then .error "Invalid hex string"
  else .ok ((hexPairs hex.data).map (fun p => ((jsParseIntHex [p.1, p.2]).getD 0) % 256))

/-- `hexToAsciiSafe` (part_001:526-544): unlike `decodeIA5String` this
checks each pair for `NaN` and builds the string with
`String.fromCharCode` (raw code units, not windows-1252). -/
def hexToAsciiSafe (hex : String) : String :=
  if hex.length % 2 ≠ 0 then ""
  else
    let vals := (hexPairs hex.data).map (fun p => jsParseIntHex [p.1, p.2])
    if vals.any Option.isNone then ""
    else String.mk (vals.map (fun v => Char.ofNat ((v.getD 0) % 65536)))

/-- A decoded `GeneralName` (part_001:278-281). -/
structure GeneralName where
  type : String
  value : String
deriving Repr, DecidableEq

/-- Run the TLV decoder as the mapper's helpers do, a thrown error carrying
its rendered message. -/
def runParseASN1 (bytes : List Nat) (options : ParseOptions) :
    Except String (ParseResultVal × List String) :=
  match parseASN1 bytes options with
  | .ok r => .ok r
  | .error e => .error (jsErrorString e)

/-- `decodeContextString` (part_001:674-676). -/
def decodeContextString (node : ASN1StructuredNode) : String :=
  match node.leaf? with
  | some lv => if lv.rawHex ≠ "" then hexToAsciiSafe lv.rawHex else ""
  | none => ""

/-- `decodeIPAddress` (part_001:678-685). -/
def decodeIPAddress (node : ASN1StructuredNode) : String :=
  match node.leaf? with
  | some lv =>
    if lv.rawHex ≠ "" then
      let hex := lv.rawHex.data
      if hex.length = 8 then
        String.intercalate "." (((List.range 4).map
          (fun i => match jsParseIntHex ((hex.drop (i * 2)).take 2) with
            | some v => toString v
            | none => "NaN")))
      else if hex.length = 32 then
        String.intercalate ":" ((List.range 8).map
          (fun i => String.mk ((hex.drop (i * 4)).take 4)))
      else ""
    else ""
  | none => ""

/-- `parseDirectoryName` (part_001:687-698). -/
def parseDirectoryName (node : ASN1StructuredNode) : Except String String := do
  let bytes ← hexToArrayBuffer node.fullHex
  let parsed ← runParseASN1 bytes { parseAll := true }
  let rdns : Option (List ASN1StructuredNode) :=
    match parsed.1 with
    | .many ns => some ns
    | .one (some n) => n.children?
    | .one none => some []
    | _ => some []
  match rdns with
  | none => .ok ""
  | some rs =>
    .ok (String.intercalate ", " (rs.map (fun rdn =>
      let attr := (rdn.children?.getD [])[0]?
      let attrChildren :=
        match attr with
        | some a => a.children?.getD []
        | none => []
      let typeNode := attrChildren[0]?
      let valueNode := attrChildren[1]?
      jsStringOr "Unknown" (getDecoded typeNode) ++ "=" ++
        jsStringOr "Unknown" (getDecoded valueNode))))

/-- `parseRegisteredID` (part_001:700-703): `getDecoded(parsed.result)` is
called on the result *array* of `{parseAll: true}`, so `node.value.decoded`
dereferences `undefined` and always throws a `TypeError`. -/
def parseRegisteredID (node : ASN1StructuredNode) : Except String String := do
  let bytes ← hexToArrayBuffer node.fullHex
  let parsed ← runParseASN1 bytes { parseAll := true }
  match parsed.1 with
  | .many _ => .error "TypeError"
  | .one none => .ok ""
  | .one (some n) => .ok (jsStringOr "" (getDecoded (some n)))
  | _ => .ok ""

def jsonStringLit (s : String) : String :=
  "\"" ++ s ++ "\""

def tagInfoToJson (t : TagInfo) : String :=
  "\x7b\"number\":" ++ toString t.number ++ ",\"hex\":" ++ jsonStringLit t.hex ++
    ",\"class\":" ++ jsonStringLit t.«class» ++ ",\"constructed\":" ++
    (if t.constructed then "true" else "false") ++ ",\"type\":" ++
    jsonStringLit t.type ++ "\x7d"

def lengthInfoToJson (l : LengthInfo) : String :=
  "\x7b\"value\":" ++ toString l.value ++ ",\"encodedHex\":" ++
    jsonStringLit l.encodedHex ++ "\x7d"

def decValToJson : DecVal → String
  | .str s => jsonStringLit s
  | .num n => toString n
  | .boolv b => if b then "true" else "false"
  | .bits u h => "\x7b\"unusedBits\":" ++ toString u ++ ",\"dataHex\":" ++ jsonStringLit h ++ "\x7d"
  | .datev (some ms) => jsonStringLit ("Date(" ++ toString ms ++ ")")
  | .datev none => "null"
  | .realv r => jsonStringLit (jsDisplayString (.realv r))

def leafValueToJson (lv : LeafValue) : String :=
  "\x7b\"rawHex\":" ++ jsonStringLit lv.rawHex ++
    (match lv.base64 with
     | some b => ",\"base64\":" ++ jsonStringLit b
     | none => "") ++
    (match lv.decoded with
     | some d => ",\"decoded\":" ++ decValToJson d
     | none => "") ++ "\x7d"

mutual

/-- `JSON.stringify` of a node tree, as `parseOtherName` performs
(part_001:705-708).  Rendered compactly: the `(null, 2)` indentation
whitespace of the JavaScript output is not reproduced, and string escaping
is not modelled (no claim depends on this rendering). -/
def nodeToJson : ASN1StructuredNode → String
  | .constructedNode t l cs off fh =>
    "\x7b\"tag\":" ++ tagInfoToJson t ++ ",\"length\":" ++ lengthInfoToJson l ++
      ",\"value\":[" ++ String.intercalate "," (nodesToJson cs) ++ "],\"offset\":" ++
      toString off ++ ",\"fullHex\":" ++ jsonStringLit fh ++ "\x7d"
  | .primitiveNode t l lv off fh =>
    "\x7b\"tag\":" ++ tagInfoToJson t ++ ",\"length\":" ++ lengthInfoToJson l ++
      ",\"value\":" ++ leafValueToJson lv ++ ",\"offset\":" ++
      toString off ++ ",\"fullHex\":" ++ jsonStringLit fh ++ "\x7d"

def nodesToJson : List ASN1StructuredNode → List String
  | [] => []
  | n :: ns => nodeToJson n :: nodesToJson ns

end

/-- `parseOtherName` (part_001:705-708). -/
def parseOtherName (node : ASN1StructuredNode) : Except String String := do
  let bytes ← hexToArrayBuffer node.fullHex
  let parsed ← runParseASN1 bytes { parseAll := true }
  match parsed.1 with
  | .many ns => .ok ("[" ++ String.intercalate "," (nodesToJson ns) ++ "]")
  | .one (some n) => .ok (nodeToJson n)
  | .one none => .ok "undefined"
  | _ => .ok ""

/-- `decodeGeneralName` (part_001:661-672). -/
def decodeGeneralName (name : ASN1StructuredNode) : Except String GeneralName :=
  if name.tag.number = 1 then .ok ⟨"email", decodeContextString name⟩
  else if name.tag.number = 2 then .ok ⟨"DNS", decodeContextString name⟩
  else if name.tag.number = 6 then .ok ⟨"URI", decodeContextString name⟩
  else if name.tag.number = 7 then .ok ⟨"IP", decodeIPAddress name⟩
  else if name.tag.number = 4 then do
    let dn ← parseDirectoryName name
    .ok ⟨"directoryName", dn⟩
  else if name.tag.number = 8 then do
    let rid ← parseRegisteredID name
    .ok ⟨"registeredID", rid⟩
  else if name.tag.number = 0 then do
    let o ← parseOtherName name
    .ok ⟨"otherName", o⟩
  else .ok ⟨"Unknown(" ++ toString name.tag.number ++ ")", decodeContextString name⟩

/-- `parseASN1FromRawHex` (part_001:632-651). -/
def parseASN1FromRawHex (node : Option ASN1StructuredNode) :
    Except String (List ASN1StructuredNode) :=
  match getRawHex node with
  | none => .ok []
  | some rawHex =>
    if rawHex = "" then .ok []
    else do
      let buffer ← hexToArrayBuffer rawHex
      let parsed ← runParseASN1 buffer { parseAll := true }
      match parsed.1 with
      | .many ns =>
        match ns.find? (fun n => n.tag.type == "SEQUENCE") with
        | some topSeq => .ok (topSeq.children?.getD [])
        | none => .ok []
      | .one (some n) =>
        if n.tag.type = "SEQUENCE" then
          match n.children? with
          | some cs => .ok cs
          | none => .ok []
        else .ok []
      | .one none => .ok []
      | _ => .ok []

/-- `parseSubjectAltName` (part_001:654-659). -/
def parseSubjectAltName (node : Option ASN1StructuredNode) :
    Except String (List GeneralName) := do
  let names ← parseASN1FromRawHex node
  (names.filter (fun n => n.tag.«class» == "CONTEXT-SPECIFIC")).mapM decodeGeneralName

/-- `parseKeyUsage` (part_001:283-300).  The `parseInt(bitsHex, 16)` model
is exact; JavaScript is exact only below 2^53, which the keyUsage theorem
assumes explicitly. -/
def parseKeyUsage (node : Option ASN1StructuredNode) : List (String × Bool) :=
  let rawHex := (getRawHex node).getD ""
  if ¬ rawHex.data.take 2 = ['0', '3'] then []
  -- `!rawHex.startsWith('03')`, expressed on the character list
  else
    let unusedBits := jsParseIntHex ((rawHex.data.drop 4).take 2)
    let bitsHex := rawHex.data.drop 6
    let bitsBinary :=
      match jsParseIntHex bitsHex with
      | some v => padStart (natToBinChars v) (bitsHex.length * 4) '0'
      | none => padStart ['N', 'a', 'N'] (bitsHex.length * 4) '0'
    let meaningfulBits :=
      match unusedBits with
      | some u => bitsBinary.take (bitsBinary.length - u)
      | none => []
    KeyUsageLabels.map (fun e => (e.2, decide (meaningfulBits[e.1]? = some '1')))

/-- The record built by `parseBasicConstraints`: a `none` field models an
absent key; `pathLenConstraint = some none` models the key set to
`undefined` by `?? undefined`. -/
structure BasicConstraintsResult where
  cA : Option Bool := none
  pathLenConstraint : Option (Option DecVal) := none
deriving Repr, DecidableEq

/-- `parseBasicConstraints` (part_001:302-311).  Note that it inspects the
already-parsed child tree of the extension value node; it never re-decodes
the OCTET STRING's raw bytes, so a primitive (DER) `extnValue` leaf yields
the empty `seq` and an empty record. -/
def parseBasicConstraints (node : Option ASN1StructuredNode) :
    Except String BasicConstraintsResult :=
  match node with
  | none => .error "TypeError"
  | some nd =>
    let seq : List ASN1StructuredNode :=
      match nd.children? with
      | some cs =>
        match cs[0]? with
        | some c0 => c0.children?.getD []
        | none => []
      | none => []
    .ok { cA := if seq.length > 0 then some (jsTruthy (getDecoded seq[0]?)) else none,
          pathLenConstraint := if seq.length > 1 then some (getDecoded seq[1]?) else none }

/-- The generic recursive decode of `parseAnyASN1` (part_001:395-403):
a SEQUENCE becomes a nested array, a leaf its decoded-or-forced value
(`null` when that is `null`), any other constructed node `null`. -/
inductive AnyVal where
  | arr (xs : List AnyVal)
  | leafV (v : Option DecVal)
  | nullV
deriving Repr

mutual

/-- `parseAnyASN1` (part_001:395-403). -/
def parseAnyASN1 : ASN1StructuredNode → AnyVal
  | .constructedNode t l cs off fh =>
    if t.type = "SEQUENCE" then .arr (parseAnyASN1List cs)
    else
      let _ := (ASN1StructuredNode.constructedNode t l cs off fh)
      .nullV
  | .primitiveNode t l lv off fh =>
    .leafV (getDecodedOrForceString (some (.primitiveNode t l lv off fh)))

def parseAnyASN1List : List ASN1StructuredNode → List AnyVal
  | [] => []
  | n :: ns => parseAnyASN1 n :: parseAnyASN1List ns

end

/-- One `{url, language}` entry produced by `parseQcPDS`. -/
structure PdsEntry where
  url : DecVal
  language : Option DecVal
deriving Repr, DecidableEq

/-- `parseQcPDS` (part_001:405-431). -/
def parseQcPDS (node : ASN1StructuredNode) : List PdsEntry :=
  match node.children? with
  | none => []
  | some entries =>
    entries.filterMap (fun entry =>
      match entry.children? with
      | none => none
      | some elements =>
        let urlNode := elements.find? (fun el => el.tag.type == "IA5String")
        let languageNode := elements.find? (fun el => el.tag.type == "PrintableString")
        let url := match urlNode with
          | some u => getDecodedOrForceString (some u)
          | none => none
        let language := match languageNode with
          | some l => getDecoded (some l)
          | none => none
        if jsTruthy url then some ⟨url.getD (.str ""), language⟩ else none)

/-- `parseQcType` (part_001:374-393). -/
def parseQcType (node : ASN1StructuredNode) : List OidLabelPair :=
  match node.children? with
  | none => []
  | some entries =>
    entries.filterMap (fun entry =>
      let oidv := getDecoded (some entry)
      if jsTruthy oidv then
        let oid := jsStringOr "" oidv
        some ⟨oid, getOIDLabel oid⟩
      else none)

/-- The `statementInfo` union of `parseSingleQCStatement`. -/
inductive QCInfo where
  | pds (entries : List PdsEntry)
  | qctype (oids : List OidLabelPair)
  | anyList (xs : List AnyVal)
  | anyOne (x : AnyVal)
deriving Repr

/-- `QCStatement` (part_001:313-316). -/
structure QCStatement where
  statementId : OidLabelPair
  statementInfo : Option QCInfo := none
deriving Repr

/-- `parseSingleQCStatement` (part_001:339-372).  On a leaf payload,
`fields.length` is `undefined`, so neither the `=== 0` early return nor the
`> 1` info branch fires and `fields[0]` is `undefined`. -/
def parseSingleQCStatement (node : ASN1StructuredNode) : QCStatement :=
  match node.children? with
  | none => ⟨⟨"Unknown", getOIDLabel "Unknown"⟩, none⟩
  | some [] => ⟨⟨"Unknown", "Unknown"⟩, none⟩
  | some (f0 :: rest) =>
    let statementId := jsStringOr "Unknown" (getDecoded (some f0))
    let label := getOIDLabel statementId
    match rest with
    | [] => ⟨⟨statementId, label⟩, none⟩
    | infoNode :: _ =>
      let info :=
        if statementId = "0.4.0.1862.1.5" then QCInfo.pds (parseQcPDS infoNode)
        else if statementId = "0.4.0.1862.1.6" then QCInfo.qctype (parseQcType infoNode)
        else
          match infoNode.children? with
          | some cs =>
            if infoNode.tag.type = "SEQUENCE" then QCInfo.anyList (parseAnyASN1List cs)
            else QCInfo.anyOne (parseAnyASN1 infoNode)
          | none => QCInfo.anyOne (parseAnyASN1 infoNode)
      ⟨⟨statementId, label⟩, some info⟩

/-- `parseQCStatements` (part_001:318-337). -/
def parseQCStatements (extensionNode : Option ASN1StructuredNode) :
    Except String (List QCStatement) :=
  match extensionNode with
  | none => .ok []
  | some _ =>
    match getRawHex extensionNode with
    | none => .ok []
    | some rawHex =>
      if rawHex = "" then .ok []
      else do
        let buffer ← hexToArrayBuffer rawHex
        let parsed ← runParseASN1 buffer { parseAll := true }
        match parsed.1 with
        | .many ns =>
          match ns.find? (fun n => n.tag.type == "SEQUENCE") with
          | some topSeq =>
            match topSeq.children? with
            | some statements => .ok (statements.map parseSingleQCStatement)
            | none => .ok []
          | none => .ok []
        | _ => .ok []

structure PolicyQualifier where
  policyQualifierId : OidLabelPair
  qualifier : DecVal
deriving Repr, DecidableEq

structure PolicyInformation where
  policyId : OidLabelPair
  qualifiers : Option (List PolicyQualifier) := none
deriving Repr, DecidableEq

/-- `CertificatePolicies` (part_001:457-459). -/
structure CertificatePolicies where
  policies : List PolicyInformation
deriving Repr, DecidableEq

/-- One qualifier of `parseCertificatePolicies` (part_001:500-516): when the
first `getDecoded` text is falsy, `Array.isArray(qualifierValueNode.value)`
dereferences the (possibly `undefined`) value node and can throw. -/
def parsePolicyQualifier (q : ASN1StructuredNode) :
    Except String (Option PolicyQualifier) :=
  match q.children? with
  | none => .ok none
  | some cs =>
    let qualifierIdNode := cs[0]?
    let qualifierValueNode := cs[1]?
    let qualifierId := jsStringOr "Unknown" (getDecoded qualifierIdNode)
    let qualifierLabel := getOIDLabel qualifierId
    let qt0 := getDecoded qualifierValueNode
    if jsTruthy qt0 then
      .ok (some ⟨⟨qualifierId, qualifierLabel⟩, qt0.getD (.str "")⟩)
    else
      match qualifierValueNode with
      | none => .error "TypeError"
      | some qv =>
        match qv.leaf? with
        | some lv =>
          if lv.rawHex ≠ "" then
            .ok (some ⟨⟨qualifierId, qualifierLabel⟩, .str (hexToAsciiSafe lv.rawHex)⟩)
          else .ok (some ⟨⟨qualifierId, qualifierLabel⟩, qt0.getD (.str "")⟩)
        | none => .ok (some ⟨⟨qualifierId, qualifierLabel⟩, qt0.getD (.str "")⟩)

/-- `parseCertificatePolicies` (part_001:461-524). -/
def parseCertificatePolicies (node : Option ASN1StructuredNode) :
    Except String CertificatePolicies :=
  match node with
  | none => .ok ⟨[]⟩
  | some _ =>
    match getRawHex node with
    | none => .ok ⟨[]⟩
    | some rawHex =>
      if rawHex = "" then .ok ⟨[]⟩
      else do
        let buffer ← hexToArrayBuffer rawHex
        let parsed ← runParseASN1 buffer { parseAll := true }
        match parsed.1 with
        | .many ns =>
          match ns.find? (fun n => n.tag.type == "SEQUENCE") with
          | some topSeq =>
            match topSeq.children? with
            | some policies => do
              let infos ← policies.foldlM (fun (acc : List PolicyInformation) policyNode => do
                match policyNode.children? with
                | none => pure acc
                | some fields => do
                  let policyIdNode := fields[0]?
                  let policyId := jsStringOr "Unknown" (getDecoded policyIdNode)
                  let policyLabel := getOIDLabel policyId
                  if fields.length > 1 then
                    match fields[1]? with
                    | some qualifiersNode =>
                      match qualifiersNode.children? with
                      | some qualifiers => do
                        let qs ← qualifiers.mapM parsePolicyQualifier
                        pure (acc ++ [⟨⟨policyId, policyLabel⟩,
                          some (qs.filterMap id)⟩])
                      | none => pure (acc ++ [⟨⟨policyId, policyLabel⟩, none⟩])
                    | none => pure (acc ++ [⟨⟨policyId, policyLabel⟩, none⟩])
                  else pure (acc ++ [⟨⟨policyId, policyLabel⟩, none⟩])) []
              .ok ⟨infos⟩
            | none => .ok ⟨[]⟩
          | none => .ok ⟨[]⟩
        | _ => .ok ⟨[]⟩

/-- `AuthorityKeyIdentifier` (part_001:546-550). -/
structure AuthorityKeyIdentifierResult where
  keyIdentifier : Option String := none
  authorityCertIssuer : Option String := none
  authorityCertSerialNumber : Option String := none
deriving Repr, DecidableEq

/-- JavaScript `String.prototype.toUpperCase` on a hex string. -/
def jsToUpperCase (s : String) : String :=
  String.mk (s.data.map Char.toUpper)

/-- `parseAuthorityKeyIdentifier` (part_001:552-593). -/
def parseAuthorityKeyIdentifier (node : Option ASN1StructuredNode) :
    Except String AuthorityKeyIdentifierResult :=
  match node with
  | none => .ok {}
  | some _ =>
    match getRawHex node with
    | none => .ok {}
    | some rawHex =>
      if rawHex = "" then .ok {}
      else do
        let buffer ← hexToArrayBuffer rawHex
        let parsed ← runParseASN1 buffer { parseAll := true }
        match parsed.1 with
        | .many ns =>
          match ns.find? (fun n => n.tag.type == "SEQUENCE") with
          | some topSeq =>
            match topSeq.children? with
            | some fields =>
              .ok (fields.foldl (fun (result : AuthorityKeyIdentifierResult) field =>
                if field.tag.«class» = "CONTEXT-SPECIFIC" then
                  if field.tag.number = 0 then
                    match field.leaf? with
                    | some lv =>
                      if lv.rawHex ≠ "" then
                        { result with keyIdentifier := some (jsToUpperCase lv.rawHex) }
                      else result
                    | none => result
                  else if field.tag.number = 1 then
                    let issuerDecoded := getDecodedOrForceString (some field)
                    let issuerStr := match issuerDecoded with
                      | some (.str s) => s
                      | _ => ""
                    { result with authorityCertIssuer := some issuerStr }
                  else if field.tag.number = 2 then
                    match field.leaf? with
                    | some lv =>
                      if lv.rawHex ≠ "" then
                        { result with authorityCertSerialNumber := some (jsToUpperCase lv.rawHex) }
                      else result
                    | none => result
                  else result
                else result) {})
            | none => .ok {}
          | none => .ok {}
        | _ => .ok {}

/-- `parseExtendedKeyUsage` (part_001:599-628). -/
def parseExtendedKeyUsage (node : Option ASN1StructuredNode) :
    Except String (List OidLabelPair) :=
  match node with
  | none => .ok []
  | some _ =>
    match getRawHex node with
    | none => .ok []
    | some rawHex =>
      if rawHex = "" then .ok []
      else do
        let buffer ← hexToArrayBuffer rawHex
        let parsed ← runParseASN1 buffer { parseAll := true }
        match parsed.1 with
        | .many ns =>
          match ns.find? (fun n => n.tag.type == "SEQUENCE") with
          | some topSeq =>
            match topSeq.children? with
            | some usages =>
              .ok (usages.map (fun usageNode =>
                let oid := jsStringOr "Unknown" (getDecoded (some usageNode))
                ⟨oid, getOIDLabel oid⟩))
            | none => .ok []
          | none => .ok []
        | _ => .ok []

/-- `AccessDescription` (part_001:711-714). -/
structure AccessDescription where
  method : OidLabelPair
  location : String
deriving Repr, DecidableEq

/-- `parseAuthorityInfoAccess` (part_001:720-734): destructuring
`desc.value` throws a `TypeError` on a leaf payload, and
`decodeContextString(undefined)` throws when the location child is missing. -/
def parseAuthorityInfoAccess (node : Option ASN1StructuredNode) :
    Except String (List AccessDescription) := do
  let entries ← parseASN1FromRawHex node
  let accessDescriptions ← entries.mapM (fun desc => do
    match desc.children? with
    | none => .error "TypeError"
    | some cs =>
      let methodNode := cs[0]?
      let locationNode := cs[1]?
      let oid := jsStringOr "Unknown" (getDecoded methodNode)
      let label := getOIDLabel oid
      match locationNode with
      | none => .error "TypeError"
      | some ln => .ok (⟨⟨oid, label⟩, decodeContextString ln⟩ : AccessDescription))
  .ok accessDescriptions

/-- `parseCRLDistributionPoints` (part_001:737-757): calling `.find` on a
leaf payload (`entry.value` not an array) throws a `TypeError`. -/
def parseCRLDistributionPoints (node : Option ASN1StructuredNode) :
    Except String (List String) := do
  let entries ← parseASN1FromRawHex node
  entries.foldlM (fun (distributionPoints : List String) entry => do
    match entry.children? with
    | none => .error "TypeError"
    | some cs =>
      match cs.find? (fun f => f.tag.«class» == "CONTEXT-SPECIFIC" && f.tag.number == 0) with
      | some dpField =>
        match dpField.children? with
        | some dpChildren =>
          match dpChildren[0]? with
          | some inner =>
            match inner.children? with
            | some names =>
              pure (distributionPoints ++ names.filterMap (fun name =>
                if name.tag.«class» == "CONTEXT-SPECIFIC" && name.tag.number == 6 then
                  let url := decodeContextString name
                  if url ≠ "" then some url else none
                else none))
            | none => pure distributionPoints
          | none => pure distributionPoints
        | none => pure distributionPoints
      | none => pure distributionPoints) []

/-- The result of `parseKnownExtension`: one variant per known OID plus the
raw-hex fallback. -/
inductive ExtValue where
  | raw (hex : String)
  | san (names : List GeneralName)
  | keyUsage (usage : List (String × Bool))
  | basicConstraints (r : BasicConstraintsResult)
  | crlDistributionPoints (dps : List String)
  | certificatePolicies (r : CertificatePolicies)
  | authorityKeyIdentifier (r : AuthorityKeyIdentifierResult)
  | extendedKeyUsage (r : List OidLabelPair)
  | authorityInfoAccess (r : List AccessDescription)
  | qcStatements (r : List QCStatement)
deriving Repr

/-- `parseKnownExtension` (part_001:263-274). -/
def parseKnownExtension (oid : String) (valueNode : Option ASN1StructuredNode) :
    Except String ExtValue :=
  if oid = "2.5.29.17" then ExtValue.san <$> parseSubjectAltName valueNode
  else if oid = "2.5.29.15" then .ok (.keyUsage (parseKeyUsage valueNode))
  else if oid = "2.5.29.19" then ExtValue.basicConstraints <$> parseBasicConstraints valueNode
  else if oid = "2.5.29.31" then ExtValue.crlDistributionPoints <$> parseCRLDistributionPoints valueNode
  else if oid = "2.5.29.32" then ExtValue.certificatePolicies <$> parseCertificatePolicies valueNode
  else if oid = "2.5.29.35" then ExtValue.authorityKeyIdentifier <$> parseAuthorityKeyIdentifier valueNode
  else if oid = "2.5.29.37" then ExtValue.extendedKeyUsage <$> parseExtendedKeyUsage valueNode
  else if oid = "1.3.6.1.5.5.7.1.1" then ExtValue.authorityInfoAccess <$> parseAuthorityInfoAccess valueNode
  else if oid = "1.3.6.1.5.5.7.1.3" then ExtValue.qcStatements <$> parseQCStatements valueNode
  else .ok (.raw ((getRawHex valueNode).getD ""))

/-- `extractOIDField` (part_001:194-199): dereferences `node.value` (throws
on `undefined`), indexes the children (a leaf payload indexes as
`undefined`), and `makeField` throws when the OID child is missing. -/
def extractOIDField (node : Option ASN1StructuredNode) :
    Except String (X509Field OidLabelPair) :=
  match node with
  | none => .error "TypeError"
  | some n =>
    let seq := n.children?.getD []
    let oidNode := seq[0]?
    let oid := jsStringOr "Unknown" (getDecoded oidNode)
    makeFieldE ⟨oid, getOIDLabel oid⟩ oidNode

/-- One `{oid, label, value}` attribute of a Name. -/
structure NameAttr where
  oid : String
  label : String
  value : DecVal
deriving Repr, DecidableEq

/-- The `{formatted, fields}` pair produced by `extractName`. -/
structure NameResult where
  formatted : X509Field String
  fields : X509Field (List NameAttr)
deriving Repr, DecidableEq

/-- `extractName` (part_001:201-233).  `(rdn.value as [])[0]` is `undefined`
for an empty RDN (or a leaf payload), so `attrSeq.value` throws; so does
destructuring a leaf `attrSeq.value`. -/
def extractName (seqNode : Option ASN1StructuredNode) : Except String NameResult :=
  match seqNode with
  | none => .error "TypeError"
  | some sn =>
    match sn.children? with
    | none => .ok ⟨makeField "Invalid Name" sn, makeField [] sn⟩
    | some rdns => do
      let pf ← rdns.foldlM (fun (acc : List String × List NameAttr) rdn => do
        let attrSeq := (rdn.children?.getD [])[0]?
        match attrSeq with
        | none => .error "TypeError"
        | some attr =>
          match attr.children? with
          | none => .error "TypeError"
          | some acs =>
            let typeNode := acs[0]?
            let valueNode := acs[1]?
            let oid := jsStringOr "Unknown" (getDecoded typeNode)
            let value := (getDecodedOrForceString valueNode).getD (.str "Unknown")
            let label := getOIDLabel oid
            pure (acc.1 ++ [label ++ "=" ++ jsDisplayString value],
              acc.2 ++ [⟨oid, label, value⟩])) ([], [])
      .ok ⟨makeField (String.intercalate ", " pf.1) sn, makeField pf.2 sn⟩

/-- One entry of the certificate's `extensions` array. -/
structure ExtensionEntry where
  extnID : X509Field OidLabelPair
  critical : X509Field Bool
  value : X509Field ExtValue
deriving Repr

/-- `X509Certificate` (part_001:13-40). -/
structure X509Certificate where
  version : X509Field Int
  serialNumber : X509Field String
  signatureAlgorithm : X509Field OidLabelPair
  issuerName : NameResult
  notBefore : X509Field DecVal
  notAfter : X509Field DecVal
  subjectName : NameResult
  spkiAlgorithm : X509Field OidLabelPair
  spkiPublicKey : X509Field String
  extensions : Option (List ExtensionEntry)
  signatureAlgorithmCert : X509Field OidLabelPair
  signatureValue : X509Field String
deriving Repr

/-- One extension entry of the `extnList.map` callback
(part_001:142-157).  On a leaf payload `extFields[0]` is `undefined`,
`extFields.length === 3` is false, and `extFields[extFields.length - 1]` is
`undefined`; `makeField` then throws a `TypeError`. -/
def parseExtensionEntry (ext : ASN1StructuredNode) : Except String ExtensionEntry := do
  let extFields := ext.children?
  let extnIDNode := match extFields with
    | some cs => cs[0]?
    | none => none
  let criticalNode := match extFields with
    | some cs => if cs.length = 3 then cs[1]? else none
    | none => none
  let valueNode := match extFields with
    | some cs => cs[cs.length - 1]?
    | none => none
  let oid := jsStringOr "Unknown" (getDecoded extnIDNode)
  let critical := match criticalNode with
    | some c => jsTruthy (getDecoded (some c))
    | none => false
  let parsedValue ← parseKnownExtension oid valueNode
  let extnIDF ← makeFieldE (OidLabelPair.mk oid (getOIDLabel oid)) extnIDNode
  let criticalF ← makeFieldE critical (criticalNode <|> extnIDNode)
  let valueF ← makeFieldE parsedValue valueNode
  pure ⟨extnIDF, criticalF, valueF⟩

/-- The `while (idx < tbs.length)` extension scan of `parseX509Certificate`
(part_001:136-160): every remaining TBS field tagged `[3] CONTEXT-SPECIFIC`
whose first child is a constructed SEQUENCE replaces `extensions`. -/
def scanExtensions (rest : List ASN1StructuredNode) :
    Except String (Option (List ExtensionEntry)) :=
  rest.foldlM (fun (acc : Option (List ExtensionEntry)) optionalField => do
    if optionalField.tag.«class» = "CONTEXT-SPECIFIC" ∧ optionalField.tag.number = 3 then
      let extnSeqNode := optionalField.children?.getD []
      match extnSeqNode[0]? with
      | some e0 =>
        if e0.tag.type = "SEQUENCE" ∧ e0.children?.isSome then do
          let extnList := e0.children?.getD []
          let entries ← extnList.mapM parseExtensionEntry
          pure (some entries)
        else pure acc
      | none => pure acc
    else pure acc) none

/-- `parseX509Certificate` (part_001:110-188).  The only explicit shape
check is `asn1.tag.type !== 'SEQUENCE' || !Array.isArray(asn1.value)`;
everything after it is positional destructuring whose `undefined` dereferences
surface as `TypeError`s, in source order. -/
def parseX509Certificate (asn1 : ASN1StructuredNode) : Except String X509Certificate :=
  match asn1.children? with
  | none => .error "Invalid X.509 Certificate structure"
  | some rootChildren =>
    if asn1.tag.type ≠ "SEQUENCE" then .error "Invalid X.509 Certificate structure"
    else do
      let tbsCertificate? := rootChildren[0]?
      let signatureAlgorithm? := rootChildren[1]?
      let signatureValue? := rootChildren[2]?
      let tbsCertificate ← match tbsCertificate? with
        | some t => pure t
        | none => .error "TypeError"
      let tbs := tbsCertificate.children?.getD []
      let t0 ← match tbs[0]? with
        | some t => pure t
        | none => .error "TypeError"
      let vi : Int × Nat :=
        if t0.tag.«class» = "CONTEXT-SPECIFIC" ∧ t0.tag.number = 0 then
          let versionInner := (t0.children?.getD [])[0]?
          ((match getDecoded versionInner with
            | some (.num n) => n
            | _ => 0) + 1, 1)
        else (1, 0)
      let version := vi.1
      let idx := vi.2
      let serialNumberNode := tbs[idx]?
      let signatureNode := tbs[idx + 1]?
      let issuerNode := tbs[idx + 2]?
      let validityNode := tbs[idx + 3]?
      let subjectNode := tbs[idx + 4]?
      let subjectPublicKeyInfoNode := tbs[idx + 5]?
      let extensions ← scanExtensions (tbs.drop (idx + 6))
      let validityNodeV ← match validityNode with
        | some v => pure v
        | none => .error "TypeError"
      let validity := validityNodeV.children?.getD []
      let notBeforeNode := validity[0]?
      let notAfterNode := validity[1]?
      let spkiNode ← match subjectPublicKeyInfoNode with
        | some v => pure v
        | none => .error "TypeError"
      let spki := spkiNode.children?.getD []
      let algorithmNode := spki[0]?
      let publicKeyNode := spki[1]?
      let versionF := makeField version tbsCertificate
      let serialF ← makeFieldE ((getRawHex serialNumberNode).getD "") serialNumberNode
      let sigAlgF ← extractOIDField signatureNode
      let issuerR ← extractName issuerNode
      let notBeforeF ← makeFieldE ((getDecoded notBeforeNode).getD (.str "")) notBeforeNode
      let notAfterF ← makeFieldE ((getDecoded notAfterNode).getD (.str "")) notAfterNode
      let subjectR ← extractName subjectNode
      let spkiAlgF ← extractOIDField algorithmNode
      let pubKeyF ← makeFieldE ((getRawHex publicKeyNode).getD "") publicKeyNode
      let sigAlgCertF ← extractOIDField signatureAlgorithm?
      let sigValF ← makeFieldE ((getRawHex signatureValue?).getD "") signatureValue?
      pure { version := versionF, serialNumber := serialF,
             signatureAlgorithm := sigAlgF, issuerName := issuerR,
             notBefore := notBeforeF, notAfter := notAfterF,
             subjectName := subjectR, spkiAlgorithm := spkiAlgF,
             spkiPublicKey := pubKeyF, extensions := extensions,
             signatureAlgorithmCert := sigAlgCertF, signatureValue := sigValF }

end X509

namespace Spec

open Asn1

/-!
Specification-side definitions: these restate the spec's wording
independently of the implementation, to be compared with it in the
theorems below.
-/

/-- The big-endian two's-complement value of a byte string (the spec's
stated contract for INTEGER/ENUMERATED decoding). -/
def twosComplement (bs : List Nat) : Int :=
  (beVal bs : Int) - (if 128 ≤ bs.head?.getD 0 then (2 : Int) ^ (8 * bs.length) else 0)

/-- The fixed-width MSB-first binary rendering of `n` (digit characters):
`w` bits, most significant first. -/
def fixedBin : Nat → Nat → List Char
  | 0, _ => []
  | w + 1, n => fixedBin w (n / 2) ++ [hexDigitChar (n % 2)]

/-- The spec's "unused-bits-trimmed bit string" of a BIT STRING payload:
all data bits MSB-first with the trailing `unused` bits removed. -/
def trimmedBits (unused : Nat) (data : List Nat) : List Char :=
  (List.flatten (data.map (fixedBin 8))).take (8 * data.length - unused)

/-- "bit `i` of the trimmed bit string equals 1". -/
def trimmedBitSet (unused : Nat) (data : List Nat) (i : Nat) : Bool :=
  decide ((trimmedBits unused data)[i]? = some '1')

/-- The two decimal digit characters of `n < 100`. -/
def twoDigChars (n : Nat) : List Char :=
  [Char.ofNat (48 + n / 10), Char.ofNat (48 + n % 10)]

/-- The spec's UTCTime pattern `YYMMDDhhmm[ss]Z`: the content string is five
two-digit groups, an optional two-digit seconds group, and a trailing `Z`. -/
def utcShape (s : String) (y mo d h mi : Nat) (sec : Option Nat) : Prop :=
  y < 100 ∧ mo < 100 ∧ d < 100 ∧ h < 100 ∧ mi < 100 ∧
    (∀ x ∈ sec, x < 100) ∧
    s.data = twoDigChars y ++ twoDigChars mo ++ twoDigChars d ++ twoDigChars h ++
      twoDigChars mi ++ (match sec with | some x => twoDigChars x | none => []) ++ ['Z']

/-- Valid tag bytes of a definite-length TLV element: either one byte whose
low five bits are not all ones, or the `0x1F` escape followed by base-128
continuation bytes (high bit set on all but the last).  `constructed`
records bit 5 of the first byte. -/
def ValidTagBytes (tb : List Nat) (constructed : Bool) : Prop :=
  (∃ b, tb = [b] ∧ b < 256 ∧ b % 32 ≠ 31 ∧ constructed = decide (b / 32 % 2 = 1)) ∨
  (∃ b mid last, tb = b :: mid ++ [last] ∧ b < 256 ∧ b % 32 = 31 ∧
    constructed = decide (b / 32 % 2 = 1) ∧
    (∀ x ∈ mid, 128 ≤ x ∧ x < 256) ∧ last < 128)

/-- Valid definite-length bytes declaring content length `n`: the short form
(one byte < 0x80) or the long form `0x80+k` followed by `k ∈ [1,4]`
big-endian bytes; lengths are restricted below `2^31` (the source reads the
length with 32-bit arithmetic, and larger declared lengths could not be
satisfied by a real buffer anyway). -/
def ValidLenBytes (lb : List Nat) (n : Nat) : Prop :=
  (∃ b, lb = [b] ∧ b < 128 ∧ n = b) ∨
  (∃ k ls, lb = (128 + k) :: ls ∧ 1 ≤ k ∧ k ≤ 4 ∧ ls.length = k ∧
    (∀ x ∈ ls, x < 256) ∧ n = beVal ls ∧ n < 2 ^ 31)

mutual

/-- A valid definite-length TLV element: a tag, a length declaring `n`, and
exactly `n` content bytes — opaque bytes for a primitive element, a valid
element sequence for a constructed one. -/
inductive ValidTLV : List Nat → Prop where
  | prim (tb lb content : List Nat) (n : Nat) :
      ValidTagBytes tb false → ValidLenBytes lb n → content.length = n →
      (∀ b ∈ content, b < 256) → ValidTLV (tb ++ lb ++ content)
  | cons (tb lb content : List Nat) (n : Nat) :
      ValidTagBytes tb true → ValidLenBytes lb n → content.length = n →
      ValidTLVList content → ValidTLV (tb ++ lb ++ content)

/-- A concatenation of valid TLV elements. -/
inductive ValidTLVList : List Nat → Prop where
  | nil : ValidTLVList []
  | cons (e rest : List Nat) : ValidTLV e → ValidTLVList rest →
      ValidTLVList (e ++ rest)

end

/-- The byte span of a decoded node: `fullHex` covers the complete TLV
(header plus content), two hex characters per byte. -/
def spanOf (n : ASN1StructuredNode) : Nat :=
  n.fullHex.length / 2

/-- Offsets of `ns` are strictly increasing and contiguous from `a` to `b`:
each node starts where the previous one ended
(`offset + header length + length.value = next offset`). -/
def chainFrom : Nat → List ASN1StructuredNode → Nat → Prop
  | a, [], b => a = b
  | a, n :: ns, b => n.offset = a ∧ chainFrom (a + spanOf n) ns b

mutual

/-- Every constructed node's children exactly and completely fill its
content interval `[offset + header, offset + header + length.value)`
with no gap or overlap, recursively. -/
def wellChunked : ASN1StructuredNode → Prop
  | .constructedNode _ l cs off fh =>
    chainFrom (off + (fh.length / 2 - l.value.toNat)) cs (off + fh.length / 2) ∧
      wellChunkedList cs
  | .primitiveNode _ _ _ _ _ => True

def wellChunkedList : List ASN1StructuredNode → Prop
  | [] => True
  | n :: ns => wellChunked n ∧ wellChunkedList ns

end

/-- The claim's single-element property, stated with explicit offset
variables: parsing a valid element embedded at `pre.length` succeeds with
any sufficient fuel, ends exactly `e.length` bytes later (header plus
declared length), and yields a node whose recorded offset and span cover
exactly the element's bytes, with well-chunked children. -/
def ElemSpec (e : List Nat) : Prop :=
  ∀ (buf pre post : List Nat) (off stop fuel : Nat),
    buf = pre ++ e ++ post → off = pre.length → stop = off + e.length →
    e.length ≤ fuel →
    ∃ node, Asn1.parseElement buf fuel off = .ok (node, stop) ∧
      node.offset = off ∧ spanOf node = e.length ∧ wellChunked node

/-- The claim's child-sequence property: the child loop over a valid
element concatenation filling `[off, endOff)` returns exactly one node per
element, chained contiguously from `off` to `endOff`. -/
def ChildSpec (s : List Nat) : Prop :=
  ∀ (buf pre post : List Nat) (off endOff : Nat)
      (acc : List Asn1.ASN1StructuredNode) (fuel : Nat),
    buf = pre ++ s ++ post → off = pre.length → endOff = off + s.length →
    s.length + 1 ≤ fuel →
    ∃ nodes, Asn1.parseChildren buf fuel (endOff : Int) off acc =
        .ok (acc ++ nodes, endOff) ∧
      chainFrom off nodes endOff ∧ wellChunkedList nodes

end Spec

namespace Fixtures

open Asn1 X509

/-! Concrete node trees used as counterexamples and witnesses.  The trees
mirror what `parseElement` would produce; the `hex`/`fullHex`/`offset`
provenance fields are irrelevant to the mapper's control flow. -/

def mkT (num : Int) (cls : String) (c : Bool) : TagInfo :=
  ⟨num, "aa", cls, c, tagToType num⟩

def seqN (cs : List ASN1StructuredNode) : ASN1StructuredNode :=
  .constructedNode (mkT 16 "UNIVERSAL" true) ⟨0, ""⟩ cs 0 ""

def leafN (num : Int) (raw : String) (d : Option DecVal) : ASN1StructuredNode :=
  .primitiveNode (mkT num "UNIVERSAL" false) ⟨0, ""⟩ ⟨raw, none, d⟩ 0 ""

def oidN (s : String) : ASN1StructuredNode := leafN 6 "ab" (some (.str s))

def serialN : ASN1StructuredNode := leafN 2 "05" (some (.num 5))

def algN : ASN1StructuredNode := seqN [oidN "1.2.840.113549.1.1.11"]

def validityN : ASN1StructuredNode :=
  seqN [leafN 23 "" (some (.str "230101120000Z")),
        leafN 23 "" (some (.str "240101120000Z"))]

def spkiN : ASN1StructuredNode :=
  seqN [seqN [oidN "1.2.840.113549.1.1.1"], leafN 3 "00ab" (some (.bits 0 "ab"))]

/-- A TBSCertificate with the six mandatory positional fields plus `extras`. -/
def tbsN (extras : List ASN1StructuredNode) : ASN1StructuredNode :=
  seqN ([serialN, algN, seqN [], validityN, seqN [], spkiN] ++ extras)

/-- A root SEQUENCE with FOUR children (TBS, algorithm, signature, and one
extra), not the three the spec requires. -/
def cert4 : ASN1StructuredNode :=
  .constructedNode (mkT 16 "UNIVERSAL" true) ⟨0, ""⟩
    [tbsN [], algN, leafN 3 "00cd" (some (.bits 0 "cd")), serialN] 0 ""

/-- The `[3] EXPLICIT` extensions wrapper. -/
def ctx3 (cs : List ASN1StructuredNode) : ASN1StructuredNode :=
  .constructedNode (mkT 3 "CONTEXT-SPECIFIC" true) ⟨0, ""⟩ [seqN cs] 0 ""

/-- One `{extnID, extnValue}` extension SEQUENCE (no critical flag). -/
def extSeq (oid : String) (valHex : String) : ASN1StructuredNode :=
  seqN [oidN oid, leafN 4 valHex none]

/-- A three-child certificate whose TBS carries the given extensions. -/
def certWithExts (es : List ASN1StructuredNode) : ASN1StructuredNode :=
  .constructedNode (mkT 16 "UNIVERSAL" true) ⟨0, ""⟩
    [tbsN [ctx3 es], algN, leafN 3 "00cd" (some (.bits 0 "cd"))] 0 ""

/-- A certificate with one unknown-OID extension (`1.2.3.4`) followed by a
well-formed known one (keyUsage). -/
def certUnknownExt : ASN1StructuredNode :=
  certWithExts [extSeq "1.2.3.4" "abcd", extSeq "2.5.29.15" "03020080"]

/-- A certificate whose only extension is a crlDistributionPoints whose
value re-decodes to `SEQUENCE { INTEGER 0 }` — a shape on which
`parseCRLDistributionPoints` calls `.find` on a non-array. -/
def certBadCrl : ASN1StructuredNode :=
  certWithExts [extSeq "2.5.29.31" "3003020100"]

/-- A complete certificate whose root node is CONTEXT-SPECIFIC class,
constructed, tag number 16 — still labelled "SEQUENCE" by `tagToType`. -/
def certCtxRoot : ASN1StructuredNode :=
  .constructedNode (mkT 16 "CONTEXT-SPECIFIC" true) ⟨0, ""⟩
    [tbsN [], algN, leafN 3 "00cd" (some (.bits 0 "cd"))] 0 ""

/-- The extnValue OCTET STRING leaf of a DER basicConstraints extension
encoding `SEQUENCE { cA BOOLEAN TRUE }` (hex `30030101ff`), no
pathLenConstraint. -/
def basicConstraintsLeaf : ASN1StructuredNode :=
  leafN 4 "30030101ff" none

/-- The same basicConstraints content as a parsed child tree (the shape
`parseBasicConstraints` actually inspects): a constructed node wrapping
`SEQUENCE { BOOLEAN true }`. -/
def basicConstraintsTree : ASN1StructuredNode :=
  .constructedNode (mkT 4 "UNIVERSAL" true) ⟨0, ""⟩
    [seqN [leafN 1 "ff" (some (.boolv true))]] 0 ""

/-- A keyUsage extnValue leaf: BIT STRING `03 02 00 80`
(unused-bits 0, single data byte 0x80). -/
def keyUsageLeaf : ASN1StructuredNode :=
  leafN 4 "03020080" none

end Fixtures

/-! ## Supporting lemmas -/

theorem jsToInt32_of_nonneg_lt (n : Int) (h0 : 0 ≤ n) (h1 : n < 2147483648) :
    Asn1.jsToInt32 n = n := by
  unfold Asn1.jsToInt32
  have hm : n.emod 4294967296 = n := Int.emod_eq_of_lt h0 (by omega)
  simp only [hm]
  omega

theorem beVal_cons (b : Nat) (bs : List Nat) :
    Asn1.beVal (b :: bs) = bs.foldl (fun a x => a * 256 + x) b := by
  simp [Asn1.beVal]

theorem foldl_be_ge (acc : Nat) (bs : List Nat) :
    acc ≤ bs.foldl (fun a x => a * 256 + x) acc := by
  induction bs generalizing acc with
  | nil => exact Nat.le_refl _
  | cons b rest ih =>
    have h1 : acc ≤ acc * 256 + b := by omega
    exact h1.trans (ih (acc * 256 + b))

theorem foldl_jsShlOr8_eq_aux (bs : List Nat) :
    ∀ acc : Nat, (∀ b ∈ bs, b < 256) →
      bs.foldl (fun a x => a * 256 + x) acc < 2 ^ 31 →
      bs.foldl Asn1.jsShlOr8 (acc : Int) = (bs.foldl (fun a x => a * 256 + x) acc : Nat) := by
  induction bs with
  | nil => intro acc _ _; rfl
  | cons b rest ih =>
    intro acc hb hlt
    have hbball : ∀ x ∈ rest, x < 256 := fun x hx => hb x (List.mem_cons_of_mem _ hx)
    have hb0 : b < 256 := hb b (List.mem_cons_self _ _)
    have hstep : acc * 256 + b ≤ rest.foldl (fun a x => a * 256 + x) (acc * 256 + b) :=
      foldl_be_ge _ _
    have hrest : rest.foldl (fun a x => a * 256 + x) (acc * 256 + b) < 2 ^ 31 := by
      simpa [List.foldl] using hlt
    have hacc : acc * 256 + b < 2 ^ 31 := lt_of_le_of_lt hstep hrest
    have h1 : Asn1.jsShlOr8 (acc : Int) b = ((acc * 256 + b : Nat) : Int) := by
      unfold Asn1.jsShlOr8
      rw [jsToInt32_of_nonneg_lt ((acc : Int) * 256) (by positivity) (by omega)]
      push_cast
      omega
    simp only [List.foldl, h1]
    exact ih (acc * 256 + b) hbball hrest

theorem foldl_jsShlOr8_eq (bs : List Nat) (h : ∀ b ∈ bs, b < 256)
    (hlt : Asn1.beVal bs < 2 ^ 31) :
    bs.foldl Asn1.jsShlOr8 (0 : Int) = (Asn1.beVal bs : Int) := by
  have := foldl_jsShlOr8_eq_aux bs 0 h (by simpa [Asn1.beVal] using hlt)
  simp only [Asn1.beVal] at this ⊢
  exact this

theorem jsShl1_eight : Asn1.jsShl1 8 = 256 := by decide

theorem jsShl1_sixteen : Asn1.jsShl1 16 = 65536 := by decide

theorem jsShl1_twentyfour : Asn1.jsShl1 24 = 16777216 := by decide

theorem beVal_lt_aux (bs : List Nat) :
    ∀ acc : Nat, (∀ b ∈ bs, b < 256) →
      bs.foldl (fun a x => a * 256 + x) acc < (acc + 1) * 256 ^ bs.length := by
  induction bs with
  | nil => intro acc _; simp only [List.foldl, List.length_nil, pow_zero, mul_one]; omega
  | cons b rest ih =>
    intro acc h
    have hb : b < 256 := h b (List.mem_cons_self _ _)
    have hrest : ∀ x ∈ rest, x < 256 := fun x hx => h x (List.mem_cons_of_mem _ hx)
    simp only [List.foldl, List.length_cons]
    calc rest.foldl (fun a x => a * 256 + x) (acc * 256 + b)
        < (acc * 256 + b + 1) * 256 ^ rest.length := ih (acc * 256 + b) hrest
      _ ≤ (acc + 1) * (256 ^ rest.length * 256) := by
          have : acc * 256 + b + 1 ≤ (acc + 1) * 256 := by omega
          calc (acc * 256 + b + 1) * 256 ^ rest.length
              ≤ (acc + 1) * 256 * 256 ^ rest.length :=
                Nat.mul_le_mul_right _ this
            _ = (acc + 1) * (256 ^ rest.length * 256) := by ring
      _ = (acc + 1) * 256 ^ (rest.length + 1) := by rw [pow_succ]

theorem beVal_lt (bs : List Nat) (h : ∀ b ∈ bs, b < 256) :
    Asn1.beVal bs < 256 ^ bs.length := by
  have := beVal_lt_aux bs 0 h
  simpa [Asn1.beVal] using this

/-! ## C6 — INTEGER/ENUMERATED decoding -/

/-- C6 (counterexample): the claim says `decodeInteger` returns the
big-endian two's-complement value of the full byte string with precision
loss possible only beyond 53 bits; on the four-byte string `80 00 00 00`
(two's complement `-2^31 = -2147483648`) the decoder returns `-2147483649`,
because `(result << 8) | b` wraps at 32 bits and `1 << 32` is `1`. -/
theorem C6_counterexample :
    Asn1.decodeInteger [0x80, 0, 0, 0] = -2147483649 ∧
    Spec.twosComplement [0x80, 0, 0, 0] = -2147483648 ∧
    Asn1.decodeInteger [0x80, 0, 0, 0] ≠ Spec.twosComplement [0x80, 0, 0, 0] := by
  refine ⟨by decide, by decide, by decide⟩

/-- C6 (amended): for non-empty byte strings of at most three bytes the
INTEGER/ENUMERATED decoder returns the exact big-endian two's-complement
value, with the sign inferred from the high bit of the first byte; from
four bytes on the 32-bit shift arithmetic can return incorrect values
(`C6_counterexample`), well before the 53-bit limit the claim states. -/
theorem C6_decodeInteger_exact_up_to_three_bytes (bs : List Nat) (h1 : bs ≠ [])
    (h2 : bs.length ≤ 3) (h3 : ∀ b ∈ bs, b < 256) :
    Asn1.decodeInteger bs = Spec.twosComplement bs := by
  have hpow : (256 : Nat) ^ bs.length ≤ 256 ^ 3 :=
    Nat.pow_le_pow_right (by norm_num) h2
  have hbound : Asn1.beVal bs < 2 ^ 31 := by
    have := beVal_lt bs h3
    omega
  have hfold := foldl_jsShlOr8_eq bs h3 hbound
  rcases bs with _ | ⟨b0, tail⟩
  · exact absurd rfl h1
  have hb0 : b0 < 256 := h3 b0 (List.mem_cons_self _ _)
  have hmod : b0 % 256 = b0 := Nat.mod_eq_of_lt hb0
  simp only [Asn1.decodeInteger, Spec.twosComplement, List.head?, Option.getD, hmod]
  rw [hfold]
  rcases tail with _ | ⟨b1, tail2⟩
  · simp only [List.length_cons, List.length_nil]
    norm_num [jsShl1_eight]
    split <;> omega
  rcases tail2 with _ | ⟨b2, tail3⟩
  · simp only [List.length_cons, List.length_nil]
    norm_num [jsShl1_sixteen]
    split <;> omega
  rcases tail3 with _ | ⟨b3, tail4⟩
  · simp only [List.length_cons, List.length_nil]
    norm_num [jsShl1_twentyfour]
    split <;> omega
  · simp at h2

/-- C6 (witness): the amended theorem at the one-byte input `0x80`
(two's complement `-128`). -/
theorem C6_witness : Asn1.decodeInteger [0x80] = Spec.twosComplement [0x80] :=
  C6_decodeInteger_exact_up_to_three_bytes [0x80] (by decide) (by decide)
    (by decide)

/-! ## C7 — UTCTime decoding -/

set_option maxRecDepth 4096 in
theorem char_toNat_ofNat_small : ∀ n, n < 256 → (Char.ofNat n).toNat = n := by
  decide

theorem twoDigits_twoDigChars (n : Nat) (h : n < 100) :
    Asn1.twoDigits (Char.ofNat (48 + n / 10)) (Char.ofNat (48 + n % 10)) = some n := by
  have h1 : (Char.ofNat (48 + n / 10)).toNat = 48 + n / 10 :=
    char_toNat_ofNat_small _ (by omega)
  have h2 : (Char.ofNat (48 + n % 10)).toNat = 48 + n % 10 :=
    char_toNat_ofNat_small _ (by omega)
  unfold Asn1.twoDigits
  rw [h1, h2, if_pos (by omega)]
  congr 1
  omega

theorem twoDigChars_of_twoDigits (a b : Char) (n : Nat)
    (h : Asn1.twoDigits a b = some n) :
    Spec.twoDigChars n = [a, b] ∧ n < 100 := by
  unfold Asn1.twoDigits at h
  split at h
  case isTrue hd =>
    obtain ⟨h1, h2, h3, h4⟩ := hd
    injection h with hn
    subst hn
    constructor
    · unfold Spec.twoDigChars
      have hda : (a.toNat - 48) * 10 + (b.toNat - 48) < 100 := by omega
      have e1 : 48 + ((a.toNat - 48) * 10 + (b.toNat - 48)) / 10 = a.toNat := by omega
      have e2 : 48 + ((a.toNat - 48) * 10 + (b.toNat - 48)) % 10 = b.toNat := by omega
      rw [e1, e2, Char.ofNat_toNat, Char.ofNat_toNat]
    · omega
  case isFalse => exact absurd h (by simp)

theorem matchUTCTime_eleven (y1 y2 m1 m2 d1 d2 h1 h2 i1 i2 : Char) :
    Asn1.matchUTCTime [y1, y2, m1, m2, d1, d2, h1, h2, i1, i2, 'Z'] = (do
      let y ← Asn1.twoDigits y1 y2
      let m ← Asn1.twoDigits m1 m2
      let d ← Asn1.twoDigits d1 d2
      let h ← Asn1.twoDigits h1 h2
      let i ← Asn1.twoDigits i1 i2
      pure (y, m, d, h, i, 0)) := by
  simp [Asn1.matchUTCTime]

theorem matchUTCTime_thirteen (y1 y2 m1 m2 d1 d2 h1 h2 i1 i2 s1 s2 : Char) :
    Asn1.matchUTCTime [y1, y2, m1, m2, d1, d2, h1, h2, i1, i2, s1, s2, 'Z'] = (do
      let y ← Asn1.twoDigits y1 y2
      let m ← Asn1.twoDigits m1 m2
      let d ← Asn1.twoDigits d1 d2
      let h ← Asn1.twoDigits h1 h2
      let i ← Asn1.twoDigits i1 i2
      let s ← Asn1.twoDigits s1 s2
      pure (y, m, d, h, i, s)) := by
  simp [Asn1.matchUTCTime]

/-- C7: `decodeDate` (and the mapper's `parseASN1Date`) take
"230101120000Z" to the instant 2023-01-01T12:00:00Z (1672574400000 ms) and
"700101000000Z" to 1970-01-01T00:00:00Z (0 ms); in general every content
string of shape `YYMMDDhhmm[ss]Z` decodes with the year-50 century pivot
(`< 50 ⇒ 2000+yy`, otherwise `1900+yy`) and seconds defaulting to 0, and a
string not of that shape is returned unchanged. -/
theorem C7_utctime_decoding :
    Asn1.decodeDateStr "230101120000Z" 0x17 = .datev (some 1672574400000) ∧
    Asn1.decodeDateStr "700101000000Z" 0x17 = .datev (some 0) ∧
    X509.parseASN1Date "230101120000Z" = .datev (some 1672574400000) ∧
    X509.parseASN1Date "700101000000Z" = .datev (some 0) ∧
    (∀ s y mo d h mi sec, Spec.utcShape s y mo d h mi sec →
      Asn1.decodeDateStr s 0x17 =
        .datev (some (Asn1.jsDateUTC
          (if y < 50 then (2000 + y : Int) else (1900 + y : Int))
          ((mo : Int) - 1) d h mi (sec.getD 0)))) ∧
    (∀ s, (¬ ∃ y mo d h mi sec, Spec.utcShape s y mo d h mi sec) →
      Asn1.decodeDateStr s 0x17 = .str s) := by
  refine ⟨by decide, by decide, by decide, by decide, ?_, ?_⟩
  · intro s y mo d h mi sec hs
    obtain ⟨hy, hmo, hd, hh, hmi, hsec, hdata⟩ := hs
    have hmatch : Asn1.matchUTCTime s.data =
        some (y, mo, d, h, mi, sec.getD 0) := by
      rw [hdata]
      cases sec with
      | none =>
        simp only [Spec.twoDigChars, List.append_assoc, List.cons_append,
          List.nil_append, Option.getD_none]
        rw [matchUTCTime_eleven, twoDigits_twoDigChars y hy,
          twoDigits_twoDigChars mo hmo, twoDigits_twoDigChars d hd,
          twoDigits_twoDigChars h hh, twoDigits_twoDigChars mi hmi]
        rfl
      | some sv =>
        have hsv : sv < 100 := hsec sv rfl
        simp only [Spec.twoDigChars, List.append_assoc, List.cons_append,
          List.nil_append, Option.getD_some]
        rw [matchUTCTime_thirteen, twoDigits_twoDigChars y hy,
          twoDigits_twoDigChars mo hmo, twoDigits_twoDigChars d hd,
          twoDigits_twoDigChars h hh, twoDigits_twoDigChars mi hmi,
          twoDigits_twoDigChars sv hsv]
        rfl
    unfold Asn1.decodeDateStr
    rw [if_pos rfl, hmatch]
    cases sec <;> simp
  · intro s hne
    unfold Asn1.decodeDateStr
    rw [if_pos rfl]
    cases hm : Asn1.matchUTCTime s.data with
    | none => rfl
    | some t =>
      exfalso
      obtain ⟨y, mo, d, h, mi, sec⟩ := t
      apply hne
      unfold Asn1.matchUTCTime at hm
      split at hm
      next y1 y2 m1 m2 d1 d2 h1 h2 i1 i2 z heq =>
        split at hm
        next hz =>
          subst hz
          simp only [Option.bind_eq_bind, Option.bind_eq_some, Option.pure_def,
            Option.some_inj, Prod.mk.injEq] at hm
          obtain ⟨yv, hyv, mv, hmv, dv, hdv, hv, hhv, iv, hiv,
            rfl, rfl, rfl, rfl, rfl, rfl⟩ := hm
          obtain ⟨ey, by1⟩ := twoDigChars_of_twoDigits _ _ _ hyv
          obtain ⟨em, bm1⟩ := twoDigChars_of_twoDigits _ _ _ hmv
          obtain ⟨ed, bd1⟩ := twoDigChars_of_twoDigits _ _ _ hdv
          obtain ⟨eh, bh1⟩ := twoDigChars_of_twoDigits _ _ _ hhv
          obtain ⟨ei, bi1⟩ := twoDigChars_of_twoDigits _ _ _ hiv
          exact ⟨yv, mv, dv, hv, iv, none,
            by1, bm1, bd1, bh1, bi1, by simp,
            by rw [heq, ey, em, ed, eh, ei]; rfl⟩
        next => exact absurd hm (by simp)
      next y1 y2 m1 m2 d1 d2 h1 h2 i1 i2 s1 s2 z heq =>
        split at hm
        next hz =>
          subst hz
          simp only [Option.bind_eq_bind, Option.bind_eq_some, Option.pure_def,
            Option.some_inj, Prod.mk.injEq] at hm
          obtain ⟨yv, hyv, mv, hmv, dv, hdv, hv, hhv, iv, hiv, sv, hsv,
            rfl, rfl, rfl, rfl, rfl, rfl⟩ := hm
          obtain ⟨ey, by1⟩ := twoDigChars_of_twoDigits _ _ _ hyv
          obtain ⟨em, bm1⟩ := twoDigChars_of_twoDigits _ _ _ hmv
          obtain ⟨ed, bd1⟩ := twoDigChars_of_twoDigits _ _ _ hdv
          obtain ⟨eh, bh1⟩ := twoDigChars_of_twoDigits _ _ _ hhv
          obtain ⟨ei, bi1⟩ := twoDigChars_of_twoDigits _ _ _ hiv
          obtain ⟨es, bs1⟩ := twoDigChars_of_twoDigits _ _ _ hsv
          exact ⟨yv, mv, dv, hv, iv, some sv,
            by1, bm1, bd1, bh1, bi1, by simpa using bs1,
            by simp [heq, ey, em, ed, eh, ei, es]⟩
        next => exact absurd hm (by simp)
      next => exact absurd hm (by simp)

/-- C7 (witness): the pattern theorem applied to the 11-character form
"9901011200Z" — year 99 pivots to 1999, seconds default to 0. -/
theorem C7_witness :
    Asn1.decodeDateStr "9901011200Z" 0x17 =
      .datev (some (Asn1.jsDateUTC
        (if (99 : Nat) < 50 then (2000 + (99 : Nat) : Int) else (1900 + (99 : Nat) : Int))
        (((1 : Nat) : Int) - 1) 1 12 0 ((none : Option Nat).getD 0))) :=
  C7_utctime_decoding.2.2.2.2.1 "9901011200Z" 99 1 1 12 0 none
    ⟨by decide, by decide, by decide, by decide, by decide, by simp, by decide⟩

/-! ## C2 — bounds check after the length read -/

theorem except_bind_ok {ε α β : Type} (a : α) (f : α → Except ε β) :
    Except.bind (Except.ok (ε := ε) a) f = f a := rfl

/-- C2: whenever the tag and length of an element parse successfully but the
declared content length exceeds the bytes remaining after the length field,
`parseElement` fails with the structural error naming the element's starting
offset — for *any* recursion fuel, in particular `fuel = 0`, so the failure
occurs before any child recursion or value-byte read could happen. -/
theorem C2_bounds_check (buf : List Nat) (off fuel : Nat)
    (tagByte off1 : Nat) (tagNumber : Int) (off2 : Nat)
    (lengthValue : Int) (off3 : Nat)
    (h1 : Asn1.readByte buf off = .ok (tagByte, off1))
    (h2 : Asn1.readTagNumber buf tagByte off1 = .ok (tagNumber, off2))
    (h3 : Asn1.readLength buf off2 = .ok (lengthValue, off3))
    (h4 : (off3 : Int) + lengthValue > (buf.length : Int)) :
    Asn1.parseElement buf (fuel + 1) off =
      .error (.err ("Declared length extends beyond buffer at offset " ++
        toString off), off3) := by
  unfold Asn1.parseElement
  simp only [bind, Except.bind, h1, h2, h3]
  rw [if_pos h4]

/-- C2 (witness): the two-byte buffer `04 05` declares five content bytes
with none remaining; even with zero recursion fuel the decode fails with
the bounds error naming offset 0. -/
theorem C2_witness :
    Asn1.parseElement [0x04, 0x05] 1 0 =
      .error (.err ("Declared length extends beyond buffer at offset " ++
        toString (0 : Nat)), 2) :=
  C2_bounds_check [0x04, 0x05] 0 0 4 1 4 1 5 2 rfl rfl rfl (by decide)

/-! ## C5 — error accumulation in multi-element decoding -/

/-- C5: in parse-all mode, (1) when an element fails the loop appends a
single error naming the parser's current offset at the failure and decodes
no further elements; (2) the error list never holds more than one entry;
(3) a successful element is prepended to whatever the rest of the loop
produces, so the nodes decoded before a failure are returned; (4) the call
itself returns normally (no exception escapes `parse` in parse-all mode);
and (5) concretely, decoding `02 01 05 04 10` returns the INTEGER node
followed by one error naming offset 5. -/
theorem C5_parse_error_accumulation :
    (∀ buf pfuel (pa : Bool) fuel off e offE, off < buf.length →
      Asn1.parseElement buf pfuel off = .error (e, offE) →
      Asn1.parseLoop buf pfuel pa (fuel + 1) off =
        ([], ["Error parsing ASN.1 at offset " ++ toString offE ++ ": " ++
          Asn1.jsErrorString e])) ∧
    (∀ buf pfuel (pa : Bool) fuel off,
      ((Asn1.parseLoop buf pfuel pa fuel off).2).length ≤ 1) ∧
    (∀ buf pfuel fuel off n off', off < buf.length →
      Asn1.parseElement buf pfuel off = .ok (n, off') →
      Asn1.parseLoop buf pfuel true (fuel + 1) off =
        (n :: (Asn1.parseLoop buf pfuel true fuel off').1,
         (Asn1.parseLoop buf pfuel true fuel off').2)) ∧
    (∀ buf (s : Bool), ∃ out, Asn1.ASN1Parser.parse buf ⟨true, s⟩ = .ok out) ∧
    Asn1.ASN1Parser.parse [0x02, 0x01, 0x05, 0x04, 0x10] ⟨true, false⟩ =
      .ok (.many [.primitiveNode
            ⟨2, "02", "UNIVERSAL", false, "INTEGER"⟩ ⟨1, "01"⟩
            ⟨"05", none, some (.num 5)⟩ 0 "020105"],
        ["Error parsing ASN.1 at offset 5: Error: " ++
          "Declared length extends beyond buffer at offset 3"]) := by
  refine ⟨?_, ?_, ?_, ?_, by rfl⟩
  · intro buf pfuel pa fuel off e offE hlt herr
    unfold Asn1.parseLoop
    rw [if_pos hlt, herr]
  · intro buf pfuel pa fuel
    induction fuel with
    | zero => intro off; simp [Asn1.parseLoop]
    | succ fuel ih =>
      intro off
      unfold Asn1.parseLoop
      split
      · split
        · split
          · simpa using ih _
          · simp
        · simp
      · simp
  · intro buf pfuel fuel off n off' hlt hok
    conv_lhs => unfold Asn1.parseLoop
    rw [if_pos hlt, hok]
    rfl
  · intro buf s
    unfold Asn1.ASN1Parser.parse
    cases s <;> simp

/-- C5 (witness): the failure-step law applied to the buffer `04 10`, whose
single element declares 16 content bytes with none remaining. -/
theorem C5_witness :
    Asn1.parseLoop [0x04, 0x10] 1 true 1 0 =
      ([], ["Error parsing ASN.1 at offset " ++ toString (2 : Nat) ++ ": " ++
        Asn1.jsErrorString (.err "Declared length extends beyond buffer at offset 0")]) :=
  C5_parse_error_accumulation.1 [0x04, 0x10] 1 true 0 0
    (.err "Declared length extends beyond buffer at offset 0") 2 (by decide) rfl

/-! ## C10 — the type name depends only on the tag number -/

/-- C10: the type name a decoded node carries is `tagToType` of its tag
number only — never of its class or constructed flag; `tagToType 16` is
"SEQUENCE"; parsing the byte `B0` (CONTEXT-SPECIFIC, constructed, number 16)
yields a node labelled "SEQUENCE"; and a complete certificate tree whose
root is such a node passes `parseX509Certificate`'s root-shape check (which
compares only the type name and the child-array-ness) and decodes fully. -/
theorem C10_tagToType_ignores_class :
    (∀ buf fuel off node off',
      Asn1.parseElement buf (fuel + 1) off = .ok (node, off') →
      node.tag.type = Asn1.tagToType node.tag.number) ∧
    Asn1.tagToType 16 = "SEQUENCE" ∧
    Asn1.parseASN1 [0xB0, 0x00] ⟨true, false⟩ = .ok (.many
      [.constructedNode ⟨16, "b0", "CONTEXT-SPECIFIC", true, "SEQUENCE"⟩
        ⟨0, "00"⟩ [] 0 "b000"], []) ∧
    Fixtures.certCtxRoot.tag.«class» = "CONTEXT-SPECIFIC" ∧
    Fixtures.certCtxRoot.tag.number = 16 ∧
    (X509.parseX509Certificate Fixtures.certCtxRoot).isOk = true := by
  refine ⟨?_, by decide, by rfl, by rfl, by rfl, by rfl⟩
  intro buf fuel off node off' h
  unfold Asn1.parseElement at h
  simp only [bind, Except.bind] at h
  split at h
  · exact absurd h (by simp)
  · split at h
    · exact absurd h (by simp)
    · split at h
      · exact absurd h (by simp)
      · split at h
        · exact absurd h (by simp)
        · split at h
          · split at h
            · exact absurd h (by simp)
            · simp only [Except.ok.injEq, Prod.mk.injEq] at h
              obtain ⟨rfl, rfl⟩ := h
              rfl
          · split at h
            · exact absurd h (by simp)
            · simp only [Except.ok.injEq, Prod.mk.injEq] at h
              obtain ⟨rfl, rfl⟩ := h
              rfl

/-! ## C3 — the root-shape check of the X.509 mapper -/

/-- C3 (counterexample): the claim says `parseX509Certificate` fails with a
fatal structural error for every root whose shape differs from a SEQUENCE
with exactly three children; `cert4` is a SEQUENCE root with FOUR children
and it decodes successfully — the child count is never checked (the
destructuring `[tbs, sigAlg, sigVal] = asn1.value` ignores extras). -/
theorem C3_counterexample :
    Fixtures.cert4.children?.map List.length = some 4 ∧
    (X509.parseX509Certificate Fixtures.cert4).isOk = true := by
  exact ⟨rfl, rfl⟩

/-- C3 (amended): the mapper's only explicit shape check is that the root
is labelled "SEQUENCE" and its value is a child array — any other root
fails with the fatal structural error `Invalid X.509 Certificate
structure`; the number of children is not checked, and a SEQUENCE with
more than three children (first three well-formed) decodes successfully
with the extras ignored. -/
theorem C3_root_shape_check :
    (∀ node : Asn1.ASN1StructuredNode,
      node.tag.type ≠ "SEQUENCE" ∨ node.children? = none →
      X509.parseX509Certificate node = .error "Invalid X.509 Certificate structure") ∧
    (X509.parseX509Certificate Fixtures.cert4).isOk = true := by
  refine ⟨?_, rfl⟩
  intro node h
  rcases h with h | h
  · unfold X509.parseX509Certificate
    split
    · rfl
    · rw [if_pos h]
  · unfold X509.parseX509Certificate
    rw [h]

/-- C3 (witness): the shape-error half applied to a primitive OCTET STRING
root, which is rejected with the structural error. -/
theorem C3_witness :
    X509.parseX509Certificate Fixtures.basicConstraintsLeaf =
      .error "Invalid X.509 Certificate structure" :=
  C3_root_shape_check.1 Fixtures.basicConstraintsLeaf (Or.inl (by decide))

/-! ## C9 — basicConstraints decoding -/

/-- C9: the spec's testable property says a basicConstraints value encoding
`cA=true` with no pathLenConstraint decodes to `{cA: true}` and an absent
cA defaults to `false`.  The decoder never re-decodes the extnValue OCTET
STRING's bytes: on the DER leaf carrying `SEQUENCE { BOOLEAN TRUE }` (hex
`30030101ff`) it returns the empty record — `cA` absent, not true and not
false.  Only on an (already-parsed) constructed child tree does it read
`cA`; and when the inner SEQUENCE is empty the `cA` key is omitted rather
than defaulted to false. -/
theorem C9_basicConstraints_behavior :
    X509.parseKnownExtension "2.5.29.19" (some Fixtures.basicConstraintsLeaf) =
      .ok (.basicConstraints ⟨none, none⟩) ∧
    X509.parseBasicConstraints (some Fixtures.basicConstraintsLeaf) = .ok ⟨none, none⟩ ∧
    X509.parseBasicConstraints (some Fixtures.basicConstraintsTree) =
      .ok ⟨some true, none⟩ ∧
    (∀ t l off fh,
      X509.parseBasicConstraints (some (.constructedNode t l
        [.constructedNode t l [] off fh] off fh)) = .ok ⟨none, none⟩) := by
  refine ⟨rfl, rfl, rfl, fun t l off fh => rfl⟩

/-! ## C4 — extension dispatch fallback and failure propagation -/

/-- C4 (counterexample): the claim says any failure while re-decoding an
extension value falls back to raw hex and is never fatal.  `certBadCrl`
carries a crlDistributionPoints extension whose value re-decodes to
`SEQUENCE { INTEGER 0 }`; `parseCRLDistributionPoints` calls `.find` on the
INTEGER's non-array payload, the `TypeError` propagates uncaught, and the
whole certificate decode fails. -/
theorem C4_counterexample :
    X509.parseX509Certificate Fixtures.certBadCrl = .error "TypeError" := by
  rfl

/-- C4 (amended): an extension whose OID is not in the dispatch table
decodes to the raw hex of its (leaf) value node, and such extensions never
abort sibling extensions or the rest of the certificate — `certUnknownExt`
decodes fully, its unknown extension as raw hex and its keyUsage sibling
decoded.  Failures inside the known-OID decoders, however, are not always
absorbed: a `TypeError` thrown while walking the re-decoded value
propagates and aborts the certificate decode (`C4_counterexample`). -/
theorem C4_unknown_oid_raw_fallback :
    (∀ (oid : String) (node : Asn1.ASN1StructuredNode) (lv : Asn1.LeafValue),
      oid ∉ (["2.5.29.17", "2.5.29.15", "2.5.29.19", "2.5.29.31", "2.5.29.32",
        "2.5.29.35", "2.5.29.37", "1.3.6.1.5.5.7.1.1", "1.3.6.1.5.5.7.1.3"] :
          List String) →
      node.leaf? = some lv →
      X509.parseKnownExtension oid (some node) = .ok (.raw lv.rawHex)) ∧
    (∃ c, X509.parseX509Certificate Fixtures.certUnknownExt = .ok c ∧
      ∃ e1 e2, c.extensions = some [e1, e2] ∧
        e1.value.value = .raw "abcd" ∧
        e2.value.value = .keyUsage [("digitalSignature", true),
          ("nonRepudiation", false), ("keyEncipherment", false),
          ("dataEncipherment", false), ("keyAgreement", false),
          ("keyCertSign", false), ("cRLSign", false),
          ("encipherOnly", false), ("decipherOnly", false)]) := by
  constructor
  · intro oid node lv h hleaf
    have h1 : oid ≠ "2.5.29.17" := by intro e; exact h (by rw [e]; simp)
    have h2 : oid ≠ "2.5.29.15" := by intro e; exact h (by rw [e]; simp)
    have h3 : oid ≠ "2.5.29.19" := by intro e; exact h (by rw [e]; simp)
    have h4 : oid ≠ "2.5.29.31" := by intro e; exact h (by rw [e]; simp)
    have h5 : oid ≠ "2.5.29.32" := by intro e; exact h (by rw [e]; simp)
    have h6 : oid ≠ "2.5.29.35" := by intro e; exact h (by rw [e]; simp)
    have h7 : oid ≠ "2.5.29.37" := by intro e; exact h (by rw [e]; simp)
    have h8 : oid ≠ "1.3.6.1.5.5.7.1.1" := by intro e; exact h (by rw [e]; simp)
    have h9 : oid ≠ "1.3.6.1.5.5.7.1.3" := by intro e; exact h (by rw [e]; simp)
    unfold X509.parseKnownExtension
    rw [if_neg h1, if_neg h2, if_neg h3, if_neg h4, if_neg h5, if_neg h6,
      if_neg h7, if_neg h8, if_neg h9]
    unfold X509.getRawHex
    simp [hleaf]
  · exact ⟨_, rfl, _, _, rfl, rfl, rfl⟩

/-- C4 (witness): the raw-hex fallback applied to an extension with the
unknown OID `1.2.3.4` over an OCTET STRING leaf with content `abcd`. -/
theorem C4_witness :
    X509.parseKnownExtension "1.2.3.4" (some (Fixtures.leafN 4 "abcd" none)) =
      .ok (.raw "abcd") :=
  C4_unknown_oid_raw_fallback.1 "1.2.3.4" (Fixtures.leafN 4 "abcd" none)
    ⟨"abcd", none, none⟩ (by decide) rfl

/-- C10 (witness): the type-name law applied to the INTEGER element parsed
from the buffer `02 01 05`. -/
theorem C10_witness :
    (Asn1.ASN1StructuredNode.primitiveNode ⟨2, "02", "UNIVERSAL", false, "INTEGER"⟩
      ⟨1, "01"⟩ ⟨"05", none, some (.num 5)⟩ 0 "020105").tag.type =
    Asn1.tagToType (Asn1.ASN1StructuredNode.primitiveNode
      ⟨2, "02", "UNIVERSAL", false, "INTEGER"⟩
      ⟨1, "01"⟩ ⟨"05", none, some (.num 5)⟩ 0 "020105").tag.number :=
  C10_tagToType_ignores_class.1 [0x02, 0x01, 0x05] 2 0 _ 3 rfl

/-! ## C8 — keyUsage bit decoding -/

set_option maxRecDepth 8192 in
theorem byteHexPair : ∀ b, b < 256 →
    Asn1.padStart (Asn1.natToHexChars b) 2 '0' =
      [Asn1.hexDigitChar (b / 16), Asn1.hexDigitChar (b % 16)] := by
  decide

theorem hexDigitVal_hexDigitChar : ∀ k, k < 16 →
    X509.hexDigitVal (Asn1.hexDigitChar k) = some k := by
  decide

set_option maxRecDepth 8192 in
theorem jsParseIntHex_pair : ∀ u, u < 256 →
    X509.jsParseIntHex [Asn1.hexDigitChar (u / 16), Asn1.hexDigitChar (u % 16)] =
      some u := by
  decide

theorem natToDigitsFuel_congr (base : Nat) (hb : 2 ≤ base) :
    ∀ n f f', n ≤ f → n ≤ f' →
      Asn1.natToDigitsFuel base f n = Asn1.natToDigitsFuel base f' n := by
  intro n
  induction n using Nat.strong_induction_on with
  | _ n ih =>
    intro f f' hf hf'
    by_cases hn : n < base
    · have key : ∀ g : Nat, n ≤ g →
          Asn1.natToDigitsFuel base g n = [Asn1.hexDigitChar n] := by
        intro g hg
        cases g with
        | zero =>
          have h0 : n = 0 := by omega
          subst h0
          simp [Asn1.natToDigitsFuel]
        | succ g => simp [Asn1.natToDigitsFuel, if_pos hn]
      rw [key f hf, key f' hf']
    · have hn2 : 2 ≤ n := le_trans hb (Nat.le_of_not_lt hn)
      cases f with
      | zero => omega
      | succ f =>
        cases f' with
        | zero => omega
        | succ f' =>
          simp only [Asn1.natToDigitsFuel, if_neg hn]
          congr 1
          have hdiv : n / base < n := Nat.div_lt_self (by omega) hb
          exact ih (n / base) hdiv f f' (by omega) (by omega)

theorem natToBinChars_small : ∀ n, n < 2 →
    Asn1.natToBinChars n = [Asn1.hexDigitChar n] := by decide

theorem natToBinChars_step (n : Nat) (h : 2 ≤ n) :
    Asn1.natToBinChars n =
      Asn1.natToBinChars (n / 2) ++ [Asn1.hexDigitChar (n % 2)] := by
  unfold Asn1.natToBinChars
  cases hn : n with
  | zero => omega
  | succ m =>
    simp only [Asn1.natToDigitsFuel, if_neg (by omega : ¬ n < 2), hn]
    rw [if_neg (by omega : ¬ m + 1 < 2)]
    congr 1
    exact natToDigitsFuel_congr 2 (by omega) ((m + 1) / 2) m ((m + 1) / 2)
      (by omega) (by omega)

theorem fixedBin_succ (w n : Nat) (hw : 1 ≤ w) :
    Spec.fixedBin w n = Spec.fixedBin (w - 1) (n / 2) ++ [Asn1.hexDigitChar (n % 2)] := by
  obtain ⟨v, rfl⟩ : ∃ v, w = v + 1 := ⟨w - 1, by omega⟩
  rfl

theorem fixedBin_zero_val (w : Nat) : Spec.fixedBin w 0 = List.replicate w '0' := by
  induction w with
  | zero => rfl
  | succ v ih =>
    show Spec.fixedBin v (0 / 2) ++ [Asn1.hexDigitChar (0 % 2)] = _
    rw [Nat.zero_div, ih, List.replicate_succ' v '0']
    rfl

theorem fixedBin_small (w n : Nat) (hw : 1 ≤ w) (hn : n < 2) :
    Spec.fixedBin w n = List.replicate (w - 1) '0' ++ [Asn1.hexDigitChar n] := by
  rw [fixedBin_succ w n hw, Nat.div_eq_of_lt hn, fixedBin_zero_val,
    Nat.mod_eq_of_lt hn]

theorem padStart_append_singleton (xs : List Char) (d c : Char) (w : Nat) :
    Asn1.padStart (xs ++ [d]) w c = Asn1.padStart xs (w - 1) c ++ [d] := by
  unfold Asn1.padStart
  rw [List.length_append, List.length_singleton, List.append_assoc]
  congr 2
  omega

theorem padStart_natToBinChars (n : Nat) :
    ∀ w, 1 ≤ w → n < 2 ^ w →
      Asn1.padStart (Asn1.natToBinChars n) w '0' = Spec.fixedBin w n := by
  induction n using Nat.strong_induction_on with
  | _ n ih =>
    intro w hw hn
    by_cases h2 : n < 2
    · rw [natToBinChars_small n h2, fixedBin_small w n hw h2]
      unfold Asn1.padStart
      simp
    · have hw2 : 2 ≤ w := by
        by_contra hc
        have : w = 1 := by omega
        subst this
        simp at hn
        omega
      rw [natToBinChars_step n (by omega),
        padStart_append_singleton _ _ _ w,
        ih (n / 2) (Nat.div_lt_self (by omega) (by omega)) (w - 1) (by omega)
          (by
            have : n < 2 ^ w := hn
            have hww : w = (w - 1) + 1 := by omega
            rw [hww, pow_succ] at this
            omega),
        ← fixedBin_succ w n (by omega)]

theorem fixedBin_length (w n : Nat) : (Spec.fixedBin w n).length = w := by
  induction w generalizing n with
  | zero => rfl
  | succ v ih =>
    show (Spec.fixedBin v (n / 2) ++ [Asn1.hexDigitChar (n % 2)]).length = v + 1
    rw [List.length_append, ih]
    rfl

theorem fixedBin_split (w1 w2 a r : Nat) (hr : r < 2 ^ w2) :
    Spec.fixedBin (w1 + w2) (a * 2 ^ w2 + r) =
      Spec.fixedBin w1 a ++ Spec.fixedBin w2 r := by
  induction w2 generalizing r with
  | zero =>
    have : r = 0 := by simpa using hr
    subst this
    simp [Spec.fixedBin]
  | succ v ih =>
    have hx : w1 + (v + 1) = (w1 + v) + 1 := by omega
    rw [hx, show Spec.fixedBin ((w1 + v) + 1) (a * 2 ^ (v + 1) + r) =
        Spec.fixedBin (w1 + v) ((a * 2 ^ (v + 1) + r) / 2) ++
          [Asn1.hexDigitChar ((a * 2 ^ (v + 1) + r) % 2)] from rfl]
    have hdiv : (a * 2 ^ (v + 1) + r) / 2 = a * 2 ^ v + r / 2 := by
      rw [pow_succ, ← Nat.mul_assoc]
      omega
    have hmod : (a * 2 ^ (v + 1) + r) % 2 = r % 2 := by
      rw [pow_succ, ← Nat.mul_assoc]
      omega
    rw [hdiv, hmod, ih (r / 2) (by
      have : r < 2 ^ v * 2 := by rw [← pow_succ]; exact hr
      omega)]
    rw [List.append_assoc]
    rfl

theorem beVal_shift (l : List Nat) :
    ∀ acc : Nat, l.foldl (fun a x => a * 256 + x) acc =
      acc * 256 ^ l.length + Asn1.beVal l := by
  induction l with
  | nil => intro acc; simp [Asn1.beVal]
  | cons b rest ih =>
    intro acc
    simp only [List.foldl, List.length_cons]
    rw [ih (acc * 256 + b), beVal_cons, ih b]
    ring

theorem beVal_cons_pow (b : Nat) (rest : List Nat) :
    Asn1.beVal (b :: rest) = b * 256 ^ rest.length + Asn1.beVal rest := by
  rw [beVal_cons, beVal_shift]

theorem pow256_eq (n : Nat) : (256 : Nat) ^ n = 2 ^ (8 * n) := by
  rw [show (256 : Nat) = 2 ^ 8 from rfl, ← pow_mul]

theorem fixedBin_flatten (data : List Nat) (h : ∀ b ∈ data, b < 256) :
    Spec.fixedBin (8 * data.length) (Asn1.beVal data) =
      (data.map (Spec.fixedBin 8)).flatten := by
  induction data with
  | nil => rfl
  | cons b rest ih =>
    have hb : b < 256 := h b (List.mem_cons_self _ _)
    have hrest : ∀ x ∈ rest, x < 256 := fun x hx => h x (List.mem_cons_of_mem _ hx)
    rw [beVal_cons_pow, List.length_cons, show 8 * (rest.length + 1) =
      8 + 8 * rest.length by ring, pow256_eq,
      fixedBin_split 8 (8 * rest.length) b (Asn1.beVal rest)
        (by rw [← pow256_eq]; exact beVal_lt rest hrest),
      ih hrest]
    rfl

theorem hexOfBytes_foldl (data : List Nat) (h : ∀ b ∈ data, b < 256) :
    ∀ acc : Nat,
      ((data.map (fun b => [Asn1.hexDigitChar (b / 16), Asn1.hexDigitChar (b % 16)])).flatten).foldl
        (fun a c => a * 16 + (X509.hexDigitVal c).getD 0) acc =
      data.foldl (fun a x => a * 256 + x) acc := by
  induction data with
  | nil => intro acc; rfl
  | cons b rest ih =>
    intro acc
    have hb : b < 256 := h b (List.mem_cons_self _ _)
    have hrest : ∀ x ∈ rest, x < 256 := fun x hx => h x (List.mem_cons_of_mem _ hx)
    simp only [List.map_cons, List.flatten_cons, List.foldl_append, List.foldl_cons,
      List.foldl_nil, List.foldl, List.nil_append]
    rw [hexDigitVal_hexDigitChar (b / 16) (by omega),
      hexDigitVal_hexDigitChar (b % 16) (by omega)]
    simp only [Option.getD_some]
    rw [show ([] : List Char).append
        ((rest.map (fun b => [Asn1.hexDigitChar (b / 16), Asn1.hexDigitChar (b % 16)])).flatten) =
        (rest.map (fun b => [Asn1.hexDigitChar (b / 16), Asn1.hexDigitChar (b % 16)])).flatten
      from rfl]
    rw [ih hrest]
    congr 1
    omega

theorem jsParseIntHex_hexOfBytes (data : List Nat) (h : ∀ b ∈ data, b < 256)
    (hne : data ≠ []) :
    X509.jsParseIntHex
      ((data.map (fun b => [Asn1.hexDigitChar (b / 16), Asn1.hexDigitChar (b % 16)])).flatten) =
      some (Asn1.beVal data) := by
  set ds := (data.map (fun b => [Asn1.hexDigitChar (b / 16), Asn1.hexDigitChar (b % 16)])).flatten with hds
  have hall : ∀ c ∈ ds, (X509.hexDigitVal c).isSome := by
    intro c hc
    rw [hds] at hc
    obtain ⟨l, hl, hcl⟩ := List.mem_flatten.mp hc
    obtain ⟨b, hb, rfl⟩ := List.mem_map.mp hl
    have hb256 : b < 256 := h b hb
    simp only [List.mem_cons, List.not_mem_nil, or_false] at hcl
    rcases hcl with rfl | rfl
    · rw [hexDigitVal_hexDigitChar (b / 16) (by omega)]; rfl
    · rw [hexDigitVal_hexDigitChar (b % 16) (by omega)]; rfl
  have htake : ds.takeWhile (fun c => (X509.hexDigitVal c).isSome) = ds :=
    List.takeWhile_eq_self_iff.mpr hall
  have hdsne : ds ≠ [] := by
    rw [hds]
    cases data with
    | nil => exact absurd rfl hne
    | cons b rest => simp
  unfold X509.jsParseIntHex
  simp only [htake, if_neg hdsne]
  congr 1
  have := hexOfBytes_foldl data h 0
  rw [hds, this]
  rfl

theorem flatten_pairs_length (data : List Nat) :
    ((data.map (fun b => [Asn1.hexDigitChar (b / 16), Asn1.hexDigitChar (b % 16)])).flatten).length =
      2 * data.length := by
  induction data with
  | nil => rfl
  | cons b rest ih =>
    simp only [List.map_cons, List.flatten_cons, List.length_append, ih,
      List.length_cons]
    simp
    omega

/-- Total bit width of the per-byte fixed 8-bit expansions. -/
theorem flatten_fixedBin_length (data : List Nat) :
    ((data.map (Spec.fixedBin 8)).flatten).length = 8 * data.length := by
  induction data with
  | nil => rfl
  | cons b rest ih =>
    simp only [List.map_cons, List.flatten_cons, List.length_append, ih,
      fixedBin_length, List.length_cons]
    ring

theorem nan_take_no_one (k i : Nat) :
    ((['N', 'a', 'N'].take k)[i]? = some '1') ↔ False := by
  rw [List.getElem?_take]
  constructor
  · intro h
    split at h
    · have hi : i < 3 := by
        by_contra hc
        rw [List.getElem?_eq_none (by simpa using Nat.le_of_not_lt hc)] at h
        exact absurd h (by simp)
      interval_cases i <;> simp_all
    · exact absurd h (by simp)
  · intro h
    exact absurd h (by simp)

theorem bytesToHex_data (L unused : Nat) (data : List Nat) (hL : L < 256)
    (hu : unused < 256) (hdata : ∀ b ∈ data, b < 256) :
    (Asn1.bytesToHex ([3, L, unused] ++ data)).data =
      '0' :: '3' :: Asn1.hexDigitChar (L / 16) :: Asn1.hexDigitChar (L % 16) ::
      Asn1.hexDigitChar (unused / 16) :: Asn1.hexDigitChar (unused % 16) ::
      (data.map (fun b => [Asn1.hexDigitChar (b / 16), Asn1.hexDigitChar (b % 16)])).flatten := by
  show ((([3, L, unused] ++ data).map
      (fun b => Asn1.padStart (Asn1.natToHexChars b) 2 '0')).flatten) = _
  rw [List.map_append]
  simp only [List.map_cons, List.map_nil]
  rw [show Asn1.padStart (Asn1.natToHexChars 3) 2 '0' = ['0', '3'] from by decide,
    byteHexPair L hL, byteHexPair unused hu]
  have hmap : data.map (fun b => Asn1.padStart (Asn1.natToHexChars b) 2 '0') =
      data.map (fun b => [Asn1.hexDigitChar (b / 16), Asn1.hexDigitChar (b % 16)]) := by
    apply List.map_congr_left
    intro b hb
    exact byteHexPair b (hdata b hb)
  rw [hmap]
  simp [List.flatten_cons, List.flatten_append]

/-- C8: the keyUsage decoder.  Concretely, the BIT STRING `03 02 00 80`
(unused-bits 0, data byte 0x80) sets exactly `digitalSignature`; in
general, for an OCTET STRING wrapping a DER BIT STRING `03 L u data…`, the
flag for bit `i` of the 9-entry table is true iff bit `i` of the
unused-bits-trimmed MSB-first bit string equals 1.  The hypothesis
`beVal data < 2^53` marks the range in which the `parseInt` model is exact
(JavaScript computes it in double precision). -/
theorem C8_keyUsage_bits :
    X509.parseKnownExtension "2.5.29.15" (some Fixtures.keyUsageLeaf) =
      .ok (.keyUsage [("digitalSignature", true), ("nonRepudiation", false),
        ("keyEncipherment", false), ("dataEncipherment", false),
        ("keyAgreement", false), ("keyCertSign", false), ("cRLSign", false),
        ("encipherOnly", false), ("decipherOnly", false)]) ∧
    (∀ (L unused : Nat) (data : List Nat) (t : Asn1.TagInfo)
        (l : Asn1.LengthInfo) (off : Nat) (fh : String)
        (b64 : Option String) (dec : Option Asn1.DecVal),
      L < 256 → unused < 8 → (∀ b ∈ data, b < 256) →
      Asn1.beVal data < 2 ^ 53 →
      X509.parseKeyUsage (some (.primitiveNode t l
        ⟨Asn1.bytesToHex ([3, L, unused] ++ data), b64, dec⟩ off fh)) =
        OidMap.KeyUsageLabels.map
          (fun e => (e.2, Spec.trimmedBitSet unused data e.1))) := by
  refine ⟨by rfl, ?_⟩
  intro L unused data t l off fh b64 dec hL hu hdata h53
  have hraw := bytesToHex_data L unused data hL (by omega) hdata
  unfold X509.parseKeyUsage
  simp only [X509.getRawHex, Asn1.ASN1StructuredNode.leaf?, Option.getD_some, hraw,
    List.take_succ_cons, List.take_zero, List.drop_succ_cons, List.drop_zero,
    not_true, if_false]
  have hub : X509.jsParseIntHex
      [Asn1.hexDigitChar (unused / 16), Asn1.hexDigitChar (unused % 16)] = some unused :=
    jsParseIntHex_pair unused (by omega)
  simp only [hub]
  by_cases hd : data = []
  · subst hd
    simp only [List.map_nil, List.flatten_nil,
      show X509.jsParseIntHex ([] : List Char) = none from rfl, List.length_nil,
      Nat.zero_mul, show Asn1.padStart ['N', 'a', 'N'] 0 '0' = ['N', 'a', 'N'] from rfl]
    apply List.map_congr_left
    intro e _he
    simp [nan_take_no_one, Spec.trimmedBitSet, Spec.trimmedBits]
  · have hbb : Asn1.padStart (Asn1.natToBinChars (Asn1.beVal data))
        (8 * data.length) '0' = Spec.fixedBin (8 * data.length) (Asn1.beVal data) :=
      padStart_natToBinChars (Asn1.beVal data) (8 * data.length)
        (by cases data with
            | nil => exact absurd rfl hd
            | cons x xs => simp; omega)
        (by rw [← pow256_eq]; exact beVal_lt data hdata)
    simp only [jsParseIntHex_hexOfBytes data hdata hd, flatten_pairs_length,
      show 2 * data.length * 4 = 8 * data.length from by ring,
      hbb, fixedBin_length, fixedBin_flatten data hdata,
      Spec.trimmedBitSet, Spec.trimmedBits, flatten_fixedBin_length]

theorem C8_witness :
    (2 : Nat) < 256 ∧ (0 : Nat) < 8 ∧ (∀ b ∈ [128], b < 256) ∧
    Asn1.beVal [128] < 2 ^ 53 ∧
    X509.parseKeyUsage (some (.primitiveNode (Fixtures.mkT 4 "UNIVERSAL" false) ⟨0, ""⟩
        ⟨Asn1.bytesToHex ([3, 2, 0] ++ [128]), none, none⟩ 0 "")) =
      OidMap.KeyUsageLabels.map (fun e => (e.2, Spec.trimmedBitSet 0 [128] e.1)) :=
  ⟨by decide, by decide, by decide, by decide,
   C8_keyUsage_bits.2 2 0 [128] (Fixtures.mkT 4 "UNIVERSAL" false) ⟨0, ""⟩ 0 "" none none
     (by decide) (by decide) (by decide) (by decide)⟩

/-! ### C1: TLV length accounting -/

theorem tagBytes_ne_nil {tb : List Nat} {c : Bool}
    (h : Spec.ValidTagBytes tb c) : tb ≠ [] := by
  rcases h with ⟨b, rfl, _⟩ | ⟨b, mid, last, rfl, _⟩ <;> simp

theorem lenBytes_ne_nil {lb : List Nat} {n : Nat}
    (h : Spec.ValidLenBytes lb n) : lb ≠ [] := by
  rcases h with ⟨b, rfl, _⟩ | ⟨k, ls, rfl, _⟩ <;> simp

theorem tagBytes_bytes_lt {tb : List Nat} {c : Bool}
    (h : Spec.ValidTagBytes tb c) : ∀ b ∈ tb, b < 256 := by
  rcases h with ⟨b, rfl, hb, _⟩ | ⟨b, mid, last, rfl, hb, _, _, hmid, hlast⟩
  · intro x hx
    simp only [List.mem_singleton] at hx
    omega
  · intro x hx
    simp only [List.mem_cons, List.mem_append, List.not_mem_nil, or_false] at hx
    rcases hx with (rfl | hx) | rfl
    · omega
    · exact (hmid x hx).2
    · omega

theorem lenBytes_bytes_lt {lb : List Nat} {n : Nat}
    (h : Spec.ValidLenBytes lb n) : ∀ b ∈ lb, b < 256 := by
  rcases h with ⟨b, rfl, hb, _⟩ | ⟨k, ls, rfl, hk1, hk4, _, hls, _⟩
  · intro x hx
    simp only [List.mem_singleton] at hx
    omega
  · intro x hx
    simp only [List.mem_cons] at hx
    rcases hx with rfl | hx
    · omega
    · exact hls x hx

theorem validTLV_pos {e : List Nat} (h : Spec.ValidTLV e) : 1 ≤ e.length := by
  cases h with
  | prim tb lb content n htag _ _ _ =>
    have := tagBytes_ne_nil htag
    have : 1 ≤ tb.length := List.length_pos.mpr this
    simp only [List.length_append]
    omega
  | cons tb lb content n htag _ _ _ =>
    have := tagBytes_ne_nil htag
    have : 1 ≤ tb.length := List.length_pos.mpr this
    simp only [List.length_append]
    omega

theorem valid_bytes_lt : ∀ N : Nat,
    (∀ e, e.length ≤ N → Spec.ValidTLV e → ∀ b ∈ e, b < 256) ∧
    (∀ s, s.length ≤ N → Spec.ValidTLVList s → ∀ b ∈ s, b < 256) := by
  intro N
  induction N using Nat.strong_induction_on with
  | _ N ih =>
    have hElem : ∀ e, e.length ≤ N → Spec.ValidTLV e → ∀ b ∈ e, b < 256 := by
      intro e he hv b hb
      cases hv with
      | prim tb lb content n htag hlen hclen hcb =>
        simp only [List.mem_append] at hb
        rcases hb with (hb | hb) | hb
        · exact tagBytes_bytes_lt htag b hb
        · exact lenBytes_bytes_lt hlen b hb
        · exact hcb b hb
      | cons tb lb content n htag hlen hclen hcl =>
        have htb : 1 ≤ tb.length := List.length_pos.mpr (tagBytes_ne_nil htag)
        have hlb : 1 ≤ lb.length := List.length_pos.mpr (lenBytes_ne_nil hlen)
        have hcN : content.length < N := by
          simp only [List.length_append] at he
          omega
        simp only [List.mem_append] at hb
        rcases hb with (hb | hb) | hb
        · exact tagBytes_bytes_lt htag b hb
        · exact lenBytes_bytes_lt hlen b hb
        · exact (ih content.length hcN).2 content (le_refl _) hcl b hb
    refine ⟨hElem, ?_⟩
    intro s hs hv b hb
    cases hv with
    | nil => simp at hb
    | cons e rest hve hvr =>
      have he1 : 1 ≤ e.length := validTLV_pos hve
      have hrN : rest.length < N := by
        simp only [List.length_append] at hs
        omega
      simp only [List.mem_append] at hb
      rcases hb with hb | hb
      · exact hElem e (by simp only [List.length_append] at hs; omega) hve b hb
      · exact (ih rest.length hrN).2 rest (le_refl _) hvr b hb

theorem getAt_append (pre rest : List Nat) (x : Nat) :
    (pre ++ x :: rest)[pre.length]? = some x := by
  rw [List.getElem?_append_right (Nat.le_refl _)]
  simp

theorem readByte_at (buf pre rest : List Nat) (x off : Nat)
    (hbuf : buf = pre ++ x :: rest) (hoff : off = pre.length) (hx : x < 256) :
    Asn1.readByte buf off = .ok (x, off + 1) := by
  subst hbuf hoff
  unfold Asn1.readByte
  rw [getAt_append]
  simp [Nat.mod_eq_of_lt hx]

theorem byteView_id (l : List Nat) (h : ∀ b ∈ l, b < 256) :
    Asn1.byteView l = l := by
  unfold Asn1.byteView
  rw [List.map_congr_left (fun b hb => Nat.mod_eq_of_lt (h b hb))]
  exact List.map_id l

theorem bytesToHex_strlen (l : List Nat) (h : ∀ b ∈ l, b < 256) :
    (Asn1.bytesToHex l).length = 2 * l.length := by
  show ((l.map (fun b => Asn1.padStart (Asn1.natToHexChars b) 2 '0')).flatten).length =
    2 * l.length
  induction l with
  | nil => rfl
  | cons b rest ih =>
    have hb : b < 256 := h b (List.mem_cons_self _ _)
    have hrest := ih (fun x hx => h x (List.mem_cons_of_mem _ hx))
    simp only [List.map_cons, List.flatten_cons, List.length_append, hrest,
      byteHexPair b hb, List.length_cons, List.length_nil]
    omega

theorem bufSlice_section (buf pre mid post : List Nat) (a : Nat) (b : Int)
    (hbuf : buf = pre ++ mid ++ post) (ha : a = pre.length)
    (hb : b = ((pre.length + mid.length : Nat) : Int)) :
    Asn1.bufSlice buf a b = mid := by
  subst hbuf ha hb
  unfold Asn1.bufSlice
  rw [if_neg (by omega)]
  show List.drop pre.length
    (List.take (((pre.length + mid.length : Nat) : Int)).toNat (pre ++ mid ++ post)) = mid
  rw [show (((pre.length + mid.length : Nat) : Int)).toNat = pre.length + mid.length
    from by omega]
  rw [show pre.length + mid.length = (pre ++ mid).length from
    (List.length_append _ _).symm]
  rw [List.take_left, List.drop_left]

theorem readBytes_section (buf pre mid post : List Nat) (off : Nat) (len : Int)
    (hbuf : buf = pre ++ mid ++ post) (hoff : off = pre.length)
    (hlen : len = (mid.length : Int)) (hmb : ∀ b ∈ mid, b < 256) :
    Asn1.readBytes buf off len = .ok (mid, off + mid.length) := by
  subst hbuf hoff hlen
  unfold Asn1.readBytes
  rw [if_pos ⟨by omega, by push_cast [List.length_append]; omega⟩]
  rw [List.append_assoc, List.drop_left]
  rw [show ((mid.length : Int)).toNat = mid.length from by omega, List.take_left]
  rw [byteView_id mid hmb]

theorem tagBytes_flag {b : Nat} {rest : List Nat} {c : Bool}
    (h : Spec.ValidTagBytes (b :: rest) c) : b / 32 % 2 = 1 ↔ c = true := by
  rcases h with ⟨b', heq, _, _, hc⟩ | ⟨b', mid, last, heq, _, _, hc, _⟩ <;>
  · injection heq with hb _
    subst hb
    subst hc
    by_cases hbit : b / 32 % 2 = 1 <;> simp [hbit]

theorem readTagNumberLoop_consume :
    ∀ (mid buf pre post : List Nat) (last : Nat) (acc : Int) (off fuel : Nat),
      buf = pre ++ mid ++ last :: post → off = pre.length →
      (∀ x ∈ mid, 128 ≤ x ∧ x < 256) → last < 128 →
      mid.length + 1 ≤ fuel →
      ∃ v, Asn1.readTagNumberLoop buf fuel acc off = .ok (v, off + (mid.length + 1)) := by
  intro mid
  induction mid with
  | nil =>
    intro buf pre post last acc off fuel hbuf hoff _ hlast hfuel
    cases fuel with
    | zero => omega
    | succ f =>
      subst hbuf hoff
      unfold Asn1.readTagNumberLoop
      rw [show (pre ++ [] ++ last :: post) = pre ++ last :: post from by simp]
      rw [getAt_append]
      have hmod : last % 256 = last := Nat.mod_eq_of_lt (by omega)
      simp only [hmod, List.length_nil, Nat.zero_add]
      rw [if_neg (by omega)]
      exact ⟨_, rfl⟩
  | cons m mid' ih =>
    intro buf pre post last acc off fuel hbuf hoff hmid hlast hfuel
    cases fuel with
    | zero => simp at hfuel
    | succ f =>
      have hm := hmid m (List.mem_cons_self _ _)
      subst hbuf hoff
      unfold Asn1.readTagNumberLoop
      rw [show (pre ++ (m :: mid') ++ last :: post) = pre ++ m :: (mid' ++ last :: post)
        from by simp]
      rw [getAt_append]
      have hmod : m % 256 = m := Nat.mod_eq_of_lt (by omega)
      simp only [hmod]
      rw [if_pos (by omega : 128 ≤ m)]
      obtain ⟨v, hv⟩ := ih (pre ++ m :: (mid' ++ last :: post)) (pre ++ [m]) post last
        (Asn1.jsShlOr7 acc m) (pre.length + 1) f
        (by simp) (by simp) (fun x hx => hmid x (List.mem_cons_of_mem _ hx)) hlast
        (by simp at hfuel ⊢; omega)
      refine ⟨v, ?_⟩
      rw [hv]
      simp only [List.length_cons]
      rw [show pre.length + 1 + (mid'.length + 1) = pre.length + (mid'.length + 1 + 1)
        from by omega]

theorem readTagNumber_consume (tb : List Nat) (c : Bool) (b : Nat)
    (htag : Spec.ValidTagBytes tb c) (buf pre post : List Nat) (off : Nat)
    (hbuf : buf = pre ++ tb ++ post) (hoff : off = pre.length)
    (hhd : tb.head? = some b) :
    ∃ v, Asn1.readTagNumber buf b (off + 1) = .ok (v, off + tb.length) := by
  rcases htag with ⟨b', rfl, hb, h31, _⟩ | ⟨b', mid, last, rfl, hb, h31, _, hmid, hlast⟩
  · simp only [List.head?_cons, Option.some.injEq] at hhd
    subst hhd
    unfold Asn1.readTagNumber
    rw [if_neg h31]
    exact ⟨_, rfl⟩
  · simp only [List.cons_append, List.head?_cons, Option.some.injEq] at hhd
    subst hhd
    unfold Asn1.readTagNumber
    rw [if_pos h31]
    obtain ⟨v, hv⟩ := readTagNumberLoop_consume mid buf (pre ++ [b']) post last 0
      (off + 1) (buf.length + 1)
      (by subst hbuf; simp) (by subst hoff; simp)
      hmid hlast
      (by subst hbuf; simp only [List.length_append, List.length_cons, List.length_nil]; omega)
    refine ⟨v, ?_⟩
    rw [hv]
    rw [show off + 1 + (mid.length + 1) = off + (b' :: mid ++ [last]).length
      from by simp only [List.cons_append, List.length_append, List.length_cons,
        List.length_nil]; omega]

theorem readLengthLoop_consume :
    ∀ (ls buf pre post : List Nat) (acc : Int) (off : Nat),
      buf = pre ++ ls ++ post → off = pre.length → (∀ x ∈ ls, x < 256) →
      Asn1.readLengthLoop buf ls.length acc off =
        .ok (ls.foldl Asn1.jsShlOr8 acc, off + ls.length) := by
  intro ls
  induction ls with
  | nil =>
    intro buf pre post acc off _ _ _
    rfl
  | cons x ls' ih =>
    intro buf pre post acc off hbuf hoff hls
    have hx := hls x (List.mem_cons_self _ _)
    rw [show (x :: ls').length = ls'.length + 1 from rfl]
    unfold Asn1.readLengthLoop
    rw [readByte_at buf pre (ls' ++ post) x off (by simp [hbuf]) hoff hx]
    show Asn1.readLengthLoop buf ls'.length (Asn1.jsShlOr8 acc x) (off + 1) = _
    rw [ih buf (pre ++ [x]) post (Asn1.jsShlOr8 acc x) (off + 1)
      (by simp [hbuf]) (by simp [hoff]) (fun y hy => hls y (List.mem_cons_of_mem _ hy))]
    rw [show off + 1 + ls'.length = off + (ls'.length + 1) from by omega]
    rfl

theorem readLength_consume (lb : List Nat) (n : Nat)
    (hlen : Spec.ValidLenBytes lb n) (buf pre post : List Nat) (off : Nat)
    (hbuf : buf = pre ++ lb ++ post) (hoff : off = pre.length) :
    Asn1.readLength buf off = .ok ((n : Int), off + lb.length) := by
  rcases hlen with ⟨b, rfl, hb, hnb⟩ | ⟨k, ls, rfl, hk1, hk4, hlsk, hls, hn, hlt⟩
  · subst hnb
    have h1 := readByte_at buf pre post n off (by simp [hbuf]) hoff (by omega)
    unfold Asn1.readLength
    simp only [bind, Except.bind, h1]
    rw [if_pos hb]
    rfl
  · have h1 := readByte_at buf pre (ls ++ post) (128 + k) off (by simp [hbuf]) hoff
      (by omega)
    unfold Asn1.readLength
    simp only [bind, Except.bind, h1]
    rw [if_neg (by omega : ¬ 128 + k < 128)]
    rw [show (128 + k) % 128 = k from by omega]
    rw [if_neg (by omega : ¬ (k = 0 ∨ k > 4))]
    rw [if_neg (by
      subst hbuf hoff
      push_cast [List.length_append, List.length_cons, hlsk]
      omega)]
    have h2 := readLengthLoop_consume ls buf (pre ++ [128 + k]) post 0 (off + 1)
      (by simp [hbuf]) (by simp [hoff]) hls
    rw [hlsk] at h2
    rw [h2]
    rw [foldl_jsShlOr8_eq ls hls (by rw [← hn]; exact hlt)]
    rw [hn]
    rw [show off + 1 + k = off + ((128 + k) :: ls).length
      from by rw [List.length_cons, hlsk]; omega]

theorem elems_length_le (es : List (List Nat)) (h : ∀ e ∈ es, 1 ≤ e.length) :
    es.length ≤ es.flatten.length := by
  induction es with
  | nil => simp
  | cons e rest ih =>
    have h1 := h e (List.mem_cons_self _ _)
    have h2 := ih (fun x hx => h x (List.mem_cons_of_mem _ hx))
    simp only [List.length_cons, List.flatten_cons, List.length_append]
    omega

theorem parse_valid_spec : ∀ N : Nat,
    (∀ e, e.length ≤ N → Spec.ValidTLV e → Spec.ElemSpec e) ∧
    (∀ s, s.length ≤ N → Spec.ValidTLVList s → Spec.ChildSpec s) := by
  intro N
  induction N using Nat.strong_induction_on with
  | _ N ih =>
    have hElem : ∀ e, e.length ≤ N → Spec.ValidTLV e → Spec.ElemSpec e := by
      intro e heN hv
      intro buf pre post off stop fuel hbuf hoff hstop hfuel
      cases hv with
      | prim tb lb content n htag hlen hclen hcb =>
        obtain ⟨b, tbr, rfl⟩ : ∃ b tbr, tb = b :: tbr := by
          cases tb with
          | nil => exact absurd rfl (tagBytes_ne_nil htag)
          | cons b tbr => exact ⟨b, tbr, rfl⟩
        have hlb1 : 1 ≤ lb.length := List.length_pos.mpr (lenBytes_ne_nil hlen)
        cases fuel with
        | zero =>
          simp only [List.length_append, List.length_cons] at hfuel
          omega
        | succ f =>
          have hb256 : b < 256 := tagBytes_bytes_lt htag b (List.mem_cons_self _ _)
          have h1 : Asn1.readByte buf off = .ok (b, off + 1) :=
            readByte_at buf pre (tbr ++ lb ++ content ++ post) b off
              (by simp [hbuf]) hoff hb256
          obtain ⟨v, h2⟩ := readTagNumber_consume (b :: tbr) false b htag buf pre
            (lb ++ content ++ post) off (by simp [hbuf]) hoff rfl
          have h3 : Asn1.readLength buf (off + (b :: tbr).length) =
              .ok ((n : Int), off + (b :: tbr).length + lb.length) :=
            readLength_consume lb n hlen buf (pre ++ (b :: tbr)) (content ++ post)
              (off + (b :: tbr).length) (by simp [hbuf])
              (by subst hoff; simp [List.length_append])
          have hall : ∀ x ∈ (b :: tbr) ++ lb ++ content, x < 256 := by
            intro x hx
            simp only [List.mem_append] at hx
            rcases hx with (hx | hx) | hx
            · exact tagBytes_bytes_lt htag x hx
            · exact lenBytes_bytes_lt hlen x hx
            · exact hcb x hx
          unfold Asn1.parseElement
          simp only [bind, Except.bind, h1, h2, h3]
          rw [if_neg (by
            subst hbuf hoff
            push_cast [List.length_append, List.length_cons]
            omega)]
          rw [if_neg (fun hbit => by
            simpa using (tagBytes_flag htag).mp hbit)]
          have h5 : Asn1.readBytes buf (off + (b :: tbr).length + lb.length) ((n : Int)) =
              .ok (content, off + (b :: tbr).length + lb.length + content.length) :=
            readBytes_section buf (pre ++ (b :: tbr) ++ lb) content post
              (off + (b :: tbr).length + lb.length) ((n : Int)) (by simp [hbuf])
              (by subst hoff; simp only [List.length_append, List.length_cons])
              (by rw [hclen]) hcb
          simp only [h5]
          have hstop4 : off + (b :: tbr).length + lb.length + content.length = stop := by
            subst hstop
            simp only [List.length_append, List.length_cons]
            omega
          rw [hstop4]
          have hslice : Asn1.bufSlice buf off ((stop : Nat) : Int) =
              (b :: tbr) ++ lb ++ content :=
            bufSlice_section buf pre ((b :: tbr) ++ lb ++ content) post off
              ((stop : Nat) : Int) hbuf hoff
              (by subst hstop hoff; push_cast [List.length_append, List.length_cons]; omega)
          refine ⟨_, rfl, rfl, ?_, trivial⟩
          simp only [Spec.spanOf, Asn1.ASN1StructuredNode.fullHex]
          rw [hslice, byteView_id _ hall, bytesToHex_strlen _ hall]
          omega
      | cons tb lb content n htag hlen hclen hcl =>
        obtain ⟨b, tbr, rfl⟩ : ∃ b tbr, tb = b :: tbr := by
          cases tb with
          | nil => exact absurd rfl (tagBytes_ne_nil htag)
          | cons b tbr => exact ⟨b, tbr, rfl⟩
        have hlb1 : 1 ≤ lb.length := List.length_pos.mpr (lenBytes_ne_nil hlen)
        cases fuel with
        | zero =>
          simp only [List.length_append, List.length_cons] at hfuel
          omega
        | succ f =>
          have hb256 : b < 256 := tagBytes_bytes_lt htag b (List.mem_cons_self _ _)
          have h1 : Asn1.readByte buf off = .ok (b, off + 1) :=
            readByte_at buf pre (tbr ++ lb ++ content ++ post) b off
              (by simp [hbuf]) hoff hb256
          obtain ⟨v, h2⟩ := readTagNumber_consume (b :: tbr) true b htag buf pre
            (lb ++ content ++ post) off (by simp [hbuf]) hoff rfl
          have h3 : Asn1.readLength buf (off + (b :: tbr).length) =
              .ok ((n : Int), off + (b :: tbr).length + lb.length) :=
            readLength_consume lb n hlen buf (pre ++ (b :: tbr)) (content ++ post)
              (off + (b :: tbr).length) (by simp [hbuf])
              (by subst hoff; simp [List.length_append])
          have hallc : ∀ x ∈ content, x < 256 :=
            (valid_bytes_lt content.length).2 content (le_refl _) hcl
          have hall : ∀ x ∈ (b :: tbr) ++ lb ++ content, x < 256 := by
            intro x hx
            simp only [List.mem_append] at hx
            rcases hx with (hx | hx) | hx
            · exact tagBytes_bytes_lt htag x hx
            · exact lenBytes_bytes_lt hlen x hx
            · exact hallc x hx
          have hcontN : content.length < N := by
            simp only [List.length_append, List.length_cons] at heN
            omega
          obtain ⟨nodes, hrun, hchain, hwcl⟩ :=
            (ih content.length hcontN).2 content (le_refl _) hcl buf
              (pre ++ (b :: tbr) ++ lb) post (off + (b :: tbr).length + lb.length)
              (off + (b :: tbr).length + lb.length + n) [] f
              (by simp [hbuf])
              (by subst hoff; simp only [List.length_append, List.length_cons])
              (by omega)
              (by simp only [List.length_append, List.length_cons] at hfuel; omega)
          simp only [List.nil_append] at hrun
          unfold Asn1.parseElement
          simp only [bind, Except.bind, h1, h2, h3]
          rw [if_neg (by
            subst hbuf hoff
            push_cast [List.length_append, List.length_cons]
            omega)]
          rw [if_pos ((tagBytes_flag htag).mpr rfl)]
          rw [show ((off + (b :: tbr).length + lb.length : Nat) : Int) + ((n : Nat) : Int) =
            ((off + (b :: tbr).length + lb.length + n : Nat) : Int) from by push_cast; ring]
          simp only [hrun]
          have hstop4 : off + (b :: tbr).length + lb.length + n = stop := by
            subst hstop
            simp only [List.length_append, List.length_cons]
            omega
          rw [hstop4]
          have hslice : Asn1.bufSlice buf off ((stop : Nat) : Int) =
              (b :: tbr) ++ lb ++ content :=
            bufSlice_section buf pre ((b :: tbr) ++ lb ++ content) post off
              ((stop : Nat) : Int) hbuf hoff
              (by subst hstop hoff; push_cast [List.length_append, List.length_cons]; omega)
          have hfh : (Asn1.bytesToHex (Asn1.byteView
              (Asn1.bufSlice buf off ((stop : Nat) : Int)))).length =
              2 * ((b :: tbr) ++ lb ++ content).length := by
            rw [hslice, byteView_id _ hall, bytesToHex_strlen _ hall]
          refine ⟨_, rfl, rfl, ?_, ?_⟩
          · simp only [Spec.spanOf, Asn1.ASN1StructuredNode.fullHex]
            rw [hfh]
            omega
          · simp only [Spec.wellChunked]
            rw [hfh]
            simp only [Int.toNat_natCast]
            rw [show off + (2 * ((b :: tbr) ++ lb ++ content).length / 2 - n) =
              off + (b :: tbr).length + lb.length from by
                simp only [List.length_append, List.length_cons]
                omega]
            rw [show off + 2 * ((b :: tbr) ++ lb ++ content).length / 2 =
              off + (b :: tbr).length + lb.length + n from by
                simp only [List.length_append, List.length_cons]
                omega]
            exact ⟨hchain, hwcl⟩
    refine ⟨hElem, ?_⟩
    intro s hsN hv
    intro buf pre post off endOff acc fuel hbuf hoff hend hfuel
    cases hv with
    | nil =>
      simp only [List.length_nil, Nat.add_zero] at hend
      subst hend
      cases fuel with
      | zero => omega
      | succ f =>
        refine ⟨[], ?_, rfl, trivial⟩
        unfold Asn1.parseChildren
        rw [if_neg (by omega)]
        rw [List.append_nil]
    | cons e rest hve hvr =>
      have he1 := validTLV_pos hve
      have hsl : (e ++ rest).length = e.length + rest.length := List.length_append _ _
      cases fuel with
      | zero => omega
      | succ f =>
        obtain ⟨node, hrun1, hoffn, hspan, hwc⟩ :=
          hElem e (by rw [hsl] at hsN; omega) hve buf pre (rest ++ post) off
            (off + e.length) f (by simp [hbuf]) hoff rfl
            (by rw [hsl] at hfuel; omega)
        have hrestN : rest.length < N := by
          rw [hsl] at hsN
          omega
        obtain ⟨nodes', hrun2, hchain2, hwcl2⟩ :=
          (ih rest.length hrestN).2 rest (le_refl _) hvr buf (pre ++ e) post
            (off + e.length) endOff (acc ++ [node]) f
            (by simp [hbuf])
            (by subst hoff; simp [List.length_append])
            (by subst hend; rw [hsl]; omega)
            (by rw [hsl] at hfuel; omega)
        refine ⟨node :: nodes', ?_, ?_, ?_⟩
        · unfold Asn1.parseChildren
          rw [if_pos (by subst hend; rw [hsl]; push_cast; omega)]
          simp only [bind, Except.bind, hrun1]
          rw [hrun2]
          rw [List.append_assoc]
          rfl
        · exact ⟨hoffn, by rw [hspan]; exact hchain2⟩
        · exact ⟨hwc, hwcl2⟩

theorem parseLoop_valid :
    ∀ (es : List (List Nat)) (buf pre : List Nat) (off pfuel fuel : Nat),
      buf = pre ++ es.flatten → off = pre.length →
      (∀ e ∈ es, Spec.ValidTLV e) →
      buf.length + 1 ≤ pfuel → es.length + 1 ≤ fuel →
      ∃ nodes, Asn1.parseLoop buf pfuel true fuel off = (nodes, []) ∧
        nodes.length = es.length ∧
        nodes.map Spec.spanOf = es.map List.length ∧
        Spec.chainFrom off nodes buf.length ∧
        Spec.wellChunkedList nodes := by
  intro es
  induction es with
  | nil =>
    intro buf pre off pfuel fuel hbuf hoff hv hpf hf
    cases fuel with
    | zero => omega
    | succ f =>
      refine ⟨[], ?_, rfl, rfl, ?_, trivial⟩
      · unfold Asn1.parseLoop
        rw [if_neg (by subst hbuf hoff; simp)]
      · show off = buf.length
        subst hbuf hoff
        simp
  | cons e es' ihes =>
    intro buf pre off pfuel fuel hbuf hoff hv hpf hf
    have hve := hv e (List.mem_cons_self _ _)
    have he1 := validTLV_pos hve
    have hblen : buf.length = pre.length + (e.length + es'.flatten.length) := by
      rw [hbuf]
      simp [List.length_append]
    cases fuel with
    | zero => omega
    | succ f =>
      obtain ⟨node, hrun1, hoffn, hspan, hwc⟩ :=
        (parse_valid_spec e.length).1 e (le_refl _) hve buf pre es'.flatten off
          (off + e.length) pfuel (by simp [hbuf]) hoff rfl (by omega)
      obtain ⟨nodes', hrun2, hlen2, hmap2, hchain2, hwcl2⟩ :=
        ihes buf (pre ++ e) (off + e.length) pfuel f
          (by simp [hbuf]) (by subst hoff; simp [List.length_append])
          (fun x hx => hv x (List.mem_cons_of_mem _ hx)) hpf
          (by simp only [List.length_cons] at hf; omega)
      refine ⟨node :: nodes', ?_, ?_, ?_, ⟨hoffn, ?_⟩, ⟨hwc, hwcl2⟩⟩
      · unfold Asn1.parseLoop
        rw [if_pos (by subst hoff; omega)]
        simp only [hrun1, if_true, hrun2]
      · simp [hlen2]
      · simp [hmap2, hspan]
      · rw [hspan]
        exact hchain2

theorem parseASN1_valid (es : List (List Nat)) (hv : ∀ e ∈ es, Spec.ValidTLV e) :
    ∃ nodes, Asn1.parseASN1 es.flatten {parseAll := true, simplify := false} =
        .ok (.many nodes, []) ∧
      nodes.length = es.length ∧ nodes.map Spec.spanOf = es.map List.length ∧
      Spec.chainFrom 0 nodes es.flatten.length ∧ Spec.wellChunkedList nodes := by
  have h1 : ∀ e ∈ es, 1 ≤ e.length := fun e he => validTLV_pos (hv e he)
  obtain ⟨nodes, hrun, hlen, hmap, hchain, hwcl⟩ :=
    parseLoop_valid es es.flatten [] 0 (es.flatten.length + 1) (es.flatten.length + 1)
      (by simp) rfl hv (le_refl _) (by have := elems_length_le es h1; omega)
  refine ⟨nodes, ?_, hlen, hmap, hchain, hwcl⟩
  unfold Asn1.parseASN1 Asn1.ASN1Parser.parse
  simp only [hrun]
  rw [if_neg (by simp), if_pos trivial]

/-- C1: for every valid definite-length TLV element, decoding consumes
exactly `header length + declared length` bytes (the element's whole byte
span), at any embedding offset and with any sufficient recursion fuel, and
the produced node records that offset and span with well-chunked children;
decoding the concatenation of N valid elements in parse-all mode succeeds
with no errors and yields exactly N nodes whose spans are the element
lengths, whose offsets form the strictly increasing contiguous chain from
0 to the buffer length, and whose constructed members' children exactly
and completely fill their content intervals. -/
theorem C1_tlv_length_accounting :
    (∀ (pre e post : List Nat), Spec.ValidTLV e → ∀ fuel, e.length ≤ fuel →
      ∃ node, Asn1.parseElement (pre ++ e ++ post) fuel pre.length =
          .ok (node, pre.length + e.length) ∧
        node.offset = pre.length ∧ Spec.spanOf node = e.length ∧
        Spec.wellChunked node) ∧
    (∀ es : List (List Nat), (∀ e ∈ es, Spec.ValidTLV e) →
      ∃ nodes, Asn1.parseASN1 es.flatten {parseAll := true, simplify := false} =
          .ok (.many nodes, []) ∧
        nodes.length = es.length ∧ nodes.map Spec.spanOf = es.map List.length ∧
        Spec.chainFrom 0 nodes es.flatten.length ∧ Spec.wellChunkedList nodes) := by
  constructor
  · intro pre e post hv fuel hfuel
    exact (parse_valid_spec e.length).1 e (le_refl _) hv (pre ++ e ++ post) pre post
      pre.length (pre.length + e.length) fuel rfl rfl rfl hfuel
  · intro es hv
    exact parseASN1_valid es hv

theorem C1_witness :
    (∀ e ∈ [[2, 1, 5], [48, 3, 2, 1, 7]], Spec.ValidTLV e) ∧
    (∃ nodes,
      Asn1.parseASN1 [2, 1, 5, 48, 3, 2, 1, 7] {parseAll := true, simplify := false} =
          .ok (.many nodes, []) ∧
        nodes.length = 2 ∧ nodes.map Spec.spanOf = [3, 5] ∧
        Spec.chainFrom 0 nodes 8 ∧ Spec.wellChunkedList nodes) := by
  have hv : ∀ e ∈ [[2, 1, 5], [48, 3, 2, 1, 7]], Spec.ValidTLV e := by
    intro e he
    simp only [List.mem_cons, List.not_mem_nil, or_false] at he
    rcases he with rfl | rfl
    · exact Spec.ValidTLV.prim [2] [1] [5] 1
        (Or.inl ⟨2, rfl, by omega, by omega, by decide⟩)
        (Or.inl ⟨1, rfl, by omega, rfl⟩)
        rfl (by intro b hb; simp only [List.mem_singleton] at hb; omega)
    · exact Spec.ValidTLV.cons [48] [3] [2, 1, 7] 3
        (Or.inl ⟨48, rfl, by omega, by omega, by decide⟩)
        (Or.inl ⟨3, rfl, by omega, rfl⟩)
        rfl
        (Spec.ValidTLVList.cons [2, 1, 7] []
          (Spec.ValidTLV.prim [2] [1] [7] 1
            (Or.inl ⟨2, rfl, by omega, by omega, by decide⟩)
            (Or.inl ⟨1, rfl, by omega, rfl⟩)
            rfl (by intro b hb; simp only [List.mem_singleton] at hb; omega))
          Spec.ValidTLVList.nil)
  exact ⟨hv, C1_tlv_length_accounting.2 [[2, 1, 5], [48, 3, 2, 1, 7]] hv⟩
